import Mathlib

/-! # Policy portal: data store, quiz evaluator, course progression

A shallow embedding of `src/services/policyService.js`, of
`src/services/authService.js` and of the quiz and course code of `src/app.jsx`.

Modelling conventions.

* Records (`Policy`, `Question`, `Bundle`) are typed structures whose fields
  are the fields the source reads and writes; identifiers are strings, as
  produced by `crypto.randomUUID()`.
* `localStorage` is a record with one field per key the service uses.  An item
  is either absent (`getItem` gives `null`) or a text.  A text is kept as the
  class it falls in for `load`: the JSON text of a value, the empty string, or
  a non-empty text that `JSON.parse` rejects.
* An `async` function whose body runs synchronously is a function returning
  `Except JsError _`: `.ok v` is a promise fulfilled with `v`, `.error e` a
  promise rejected with `e`.  A function that writes to `localStorage` returns
  the new storage next to its value.
* `crypto.randomUUID()` is the explicit argument `randomUUID`: the identifier
  the call yields when the branch that makes it is taken.
-/

set_option autoImplicit false

/-! ## Data model -/

/-- One multiple-choice question of a competency quiz. -/
structure Question where
  text : String
  options : List String
  correctIndex : Nat
  deriving DecidableEq, Repr

/-- A policy document with its quiz. -/
structure Policy where
  id : String
  code : String
  title : String
  category : String
  content : String
  questions : List Question
  deriving DecidableEq, Repr

/-- An ordered group of policies forming a course. -/
structure Bundle where
  id : String
  title : String
  description : String
  policyIds : List String
  deriving DecidableEq, Repr

/-- The metadata record, holding the display string of the last update. -/
structure Metadata where
  lastUpdated : String
  deriving DecidableEq, Repr

/-- The errors thrown: the `SyntaxError` of `JSON.parse`, the `TypeError` of a
property read on `undefined`, and `new Error(message)`. -/
inductive JsError where
  | syntaxError
  | typeError
  | error (message : String)
  deriving DecidableEq, Repr

/-- The text of a `localStorage` item, by what `load` does with it:
`json v` is the text `JSON.stringify(v)`, which `JSON.parse` reads back as `v`
(the records hold only strings, naturals and arrays of these, for which the
round trip is exact); `empty` is the empty string; `malformed` is a non-empty
text that `JSON.parse` rejects. -/
inductive ItemText (α : Type) where
  | json (v : α)
  | empty
  | malformed
  deriving DecidableEq, Repr

/-- The three items of `localStorage` the service uses, named by their keys.
`none` is an item that was never set. -/
structure LocalStorage where
  njra_metadata : Option (ItemText Metadata)
  njra_policies : Option (ItemText (List Policy))
  njra_bundles : Option (ItemText (List Bundle))
  deriving DecidableEq, Repr

/-- A `localStorage` in which nothing was ever set. -/
def LocalStorage.fresh : LocalStorage := ⟨none, none, none⟩

/-! ## `policyService.js` -/

def defaultPolicies : List Policy :=
  [⟨"demo-001", "RT-01", "Airway Management", "Clinical Care",
    "<h1>Airway Management</h1><p>Ensure patency using head tilt/chin lift or jaw thrust as indicated.</p><ul><li>Assess respiratory effort.</li><li>Prepare suction.</li></ul>",
    [⟨"Primary maneuver to open airway without spinal concerns?", ["Jaw thrust", "Head tilt/chin lift"], 1⟩,
     ⟨"What equipment must be ready?", ["Suction", "Nebulizer"], 0⟩]⟩]

def defaultBundles : List Bundle :=
  [⟨"bundle-1", "Orientation Essentials",
    "Core airway and infection control policies for onboarding.", ["demo-001"]⟩]

/-- The function `load(key, fallback)`, given the item `localStorage.getItem(key)`:
`value ? JSON.parse(value) : fallback`.  `null` and the empty string are falsy. -/
def load {α : Type} (value : Option (ItemText α)) (fallback : α) : Except JsError α :=
  match value with
  | none => .ok fallback
  | some .empty => .ok fallback
  | some (.json v) => .ok v
  | some .malformed => .error .syntaxError

/-- The text `persist(key, value)` stores under its key: `JSON.stringify(value)`. -/
def persist {α : Type} (value : α) : Option (ItemText α) :=
  some (.json value)

namespace policyService

def listPolicies (ls : LocalStorage) : Except JsError (List Policy) :=
  load ls.njra_policies defaultPolicies

def listBundles (ls : LocalStorage) : Except JsError (List Bundle) :=
  load ls.njra_bundles defaultBundles

def savePolicy (randomUUID : String) (policy : Policy) (ls : LocalStorage) :
    Except JsError (List Policy × LocalStorage) := do
  let policies ← load ls.njra_policies defaultPolicies
  let «exists» := policies.find? (fun p => p.id == policy.id)
  let updated :=
    match «exists» with
    | some _ => policies.map (fun p => if p.id == policy.id then policy else p)
    | none => policies ++ [{ policy with id := randomUUID }]
  pure (updated, { ls with njra_policies := persist updated })

def deletePolicy (id : String) (ls : LocalStorage) :
    Except JsError (List Policy × LocalStorage) := do
  let policies := (← load ls.njra_policies defaultPolicies).filter (fun p => p.id != id)
  pure (policies, { ls with njra_policies := persist policies })

def updateCategory (id : String) (category : String) (ls : LocalStorage) :
    Except JsError (List Policy × LocalStorage) := do
  let policies := (← load ls.njra_policies defaultPolicies).map
    (fun p => if p.id == id then { p with category := category } else p)
  pure (policies, { ls with njra_policies := persist policies })

def saveBundle (randomUUID : String) (bundle : Bundle) (ls : LocalStorage) :
    Except JsError (List Bundle × LocalStorage) := do
  let bundles ← load ls.njra_bundles defaultBundles
  let «exists» := bundles.find? (fun b => b.id == bundle.id)
  let updated :=
    match «exists» with
    | some _ => bundles.map (fun b => if b.id == bundle.id then bundle else b)
    | none => bundles ++ [{ bundle with id := randomUUID }]
  pure (updated, { ls with njra_bundles := persist updated })

def deleteBundle (id : String) (ls : LocalStorage) :
    Except JsError (List Bundle × LocalStorage) := do
  let bundles := (← load ls.njra_bundles defaultBundles).filter (fun b => b.id != id)
  pure (bundles, { ls with njra_bundles := persist bundles })

def metadata (ls : LocalStorage) : Except JsError Metadata :=
  load ls.njra_metadata ⟨"Demo Data"⟩

/-- The argument `now` is the string `new Date().toLocaleString()` yields. -/
def updateMetadata (now : String) (ls : LocalStorage) : Except JsError (String × LocalStorage) :=
  pure (now, { ls with njra_metadata := persist (⟨now⟩ : Metadata) })

end policyService

/-! ## The upsert and delete contract, as the specification words it

Used only to compare the policy and the bundle operations with one another. -/

/-- Replace in place every record whose identifier is that of `x`. -/
def replaceById {α : Type} (idOf : α → String) (x : α) : List α → List α
  | [] => []
  | y :: ys => (if idOf y = idOf x then x else y) :: replaceById idOf x ys

/-- Upsert by identifier: replace in place when the identifier of `x` is that of
an existing record, otherwise append `x` under the newly generated identifier. -/
def upsertById {α : Type} (idOf : α → String) (withId : α → String → α)
    (newId : String) (x : α) (xs : List α) : List α :=
  if ∃ y ∈ xs, idOf y = idOf x then replaceById idOf x xs else xs ++ [withId x newId]

/-- Remove the records with the given identifier, keeping the rest in order. -/
def removeById {α : Type} (idOf : α → String) (id : String) : List α → List α
  | [] => []
  | y :: ys => if idOf y = id then removeById idOf id ys else y :: removeById idOf id ys

/-! ## Numbers of the quiz evaluator

`score / questions.length >= 0.8` is evaluated on IEEE 754 binary64 values.
Both operands of the division are integers below `2 ^ 53`, which binary64 holds
exactly, so the quotient is the exact rational quotient rounded to the nearest
binary64 value, ties to the even significand. -/

/-- The integer nearest to `a / b`, ties to even (`0 < b`). -/
def roundTiesEven (a b : Nat) : Nat :=
  let q := a / b
  let r := a % b
  if 2 * r < b then q
  else if b < 2 * r then q + 1
  else if q % 2 = 0 then q else q + 1

/-- Search upwards from `k` for the least shift at which `a * 2 ^ k / b` reaches
`2 ^ 52`, trying at most `fuel` shifts. -/
def normShift (a b : Nat) : Nat → Nat → Nat
  | 0, k => k
  | fuel + 1, k => if 2 ^ 52 * b ≤ a * 2 ^ k then k else normShift a b fuel (k + 1)

/-- The binary64 value nearest to the rational `a / b`, for `0 < a`, `0 < b` and
`a / b` between `2 ^ (-53)` and `2 ^ 53`: with `k` the shift that brings the
quotient into `[2 ^ 52, 2 ^ 53)`, the 53-bit significand is `a * 2 ^ k / b`
rounded to an integer, and the value is that significand over `2 ^ k`. -/
def roundBinary64 (a b : Nat) : ℚ :=
  let k := normShift a b 106 0
  (roundTiesEven (a * 2 ^ k) b : ℚ) / 2 ^ k

/-- The binary64 values the quiz evaluator can meet. -/
inductive Number where
  | finite (q : ℚ)
  | infinity
  | nan
  deriving DecidableEq

/-- The quotient `a / b` of two numbers holding the integers `a`, `b < 2 ^ 53`. -/
def Number.div (a b : Nat) : Number :=
  if b = 0 then (if a = 0 then .nan else .infinity)
  else if a = 0 then .finite 0
  else .finite (roundBinary64 a b)

/-- The comparison `x >= y`; it is false as soon as an operand is `NaN`. -/
def Number.ge : Number → Number → Bool
  | .finite x, .finite y => decide (y ≤ x)
  | .infinity, .finite _ => true
  | .infinity, .infinity => true
  | _, _ => false

/-- The literal `0.8`: the binary64 value nearest to `8 / 10`. -/
def literal_0_8 : Number := .finite (roundBinary64 8 10)

/-! ## `QuizComponent` of `app.jsx` -/

/-- The component state: `userAnswers` maps a question index to the chosen
option index, and has no entry (`none`) for an unanswered question. -/
structure QuizState where
  userAnswers : Nat → Option Nat
  showResult : Bool
  score : Nat

namespace QuizComponent

/-- The initial state: `useState` with an empty mapping, `false` and `0`. -/
def init : QuizState := ⟨fun _ => none, false, 0⟩

/-- The click on option `oIdx` of question `idx`:
`!showResult && setUserAnswers((p) => (\x7b ...p, [idx]: oIdx \x7d))`. -/
def selectOption (idx oIdx : Nat) (s : QuizState) : QuizState :=
  if s.showResult then s
  else { s with userAnswers := fun i => if i = idx then some oIdx else s.userAnswers i }

/-- The loop `questions.forEach((q, idx) => ...)` of `handleSubmit`, from index
`idx` on, with the running value of `correctCount`. -/
def countCorrect (userAnswers : Nat → Option Nat) : List Question → Nat → Nat → Nat
  | [], _, correctCount => correctCount
  | q :: rest, idx, correctCount =>
    countCorrect userAnswers rest (idx + 1)
      (if userAnswers idx = some q.correctIndex then correctCount + 1 else correctCount)

def handleSubmit (questions : List Question) (s : QuizState) : QuizState :=
  let correctCount := countCorrect s.userAnswers questions 0 0
  { s with score := correctCount, showResult := true }

/-- The verdict `questions.length > 0 && score / questions.length >= 0.8`. -/
def isPassed (questions : List Question) (s : QuizState) : Bool :=
  decide (questions.length > 0) && (Number.div s.score questions.length).ge literal_0_8

end QuizComponent


/-! ## `authService.js` and the configuration of `app.jsx` -/

/-- The recognised configuration options. -/
structure Config where
  apiBaseUrl : String
  adminAuthEnabled : Bool
  enableMockData : Bool
  deriving DecidableEq, Repr

def defaultConfig : Config := ⟨"", false, true⟩

/-- The value handed to `login`. -/
structure Credentials where
  email : String
  password : String
  deriving DecidableEq, Repr

/-- A request handed to `fetch`: the address, the method and the body, which
for `login` is the JSON text of the credentials. -/
structure Request where
  url : String
  method : String
  body : Option Credentials
  deriving DecidableEq, Repr

/-- The body of a response once parsed: its `error` field when it has one, and
the rest of the value as text. -/
structure Payload where
  error : Option String
  value : String
  deriving DecidableEq, Repr

/-- A response of `fetch`: the flag `ok` and the outcome of `response.json()`. -/
structure Response where
  ok : Bool
  json : Except JsError Payload

namespace createAuthService

/-- The method `login(credentials)`.  The network is the argument `fetch`; next
to the outcome of the promise stands the list of the requests that were made. -/
def login (config : Config) (fetch : Request → Except JsError Response)
    (credentials : Credentials) : Except JsError Payload × List Request :=
  if !config.adminAuthEnabled || config.apiBaseUrl == "" then
    (.error (.error "Admin access is disabled. Configure a secure backend and enable adminAuthEnabled."), [])
  else
    let request : Request := ⟨config.apiBaseUrl ++ "/auth/login", "POST", some credentials⟩
    match fetch request with
    | .error e => (.error e, [request])
    | .ok response =>
      if !response.ok then
        let payload : Payload :=
          match response.json with
          | .ok p => p
          | .error _ => ⟨none, ""⟩
        let message :=
          match payload.error with
          | some m => if m == "" then "Login failed" else m
          | none => "Login failed"
        (.error (.error message), [request])
      else (response.json, [request])

/-- The method `logout()`: the requests it makes. -/
def logout (config : Config) : List Request :=
  if !config.adminAuthEnabled || config.apiBaseUrl == "" then []
  else [⟨config.apiBaseUrl ++ "/auth/logout", "POST", none⟩]

end createAuthService

/-! ## Course progression in `app.jsx` -/

/-- The three values `courseState.mode` takes. -/
inductive Mode where
  | read
  | quiz
  | summary
  deriving DecidableEq, Repr

structure CourseState where
  active : Bool
  index : Nat
  mode : Mode
  deriving DecidableEq, Repr

/-- The part of the state of `App` the course uses. -/
structure AppState where
  view : String
  activeBundle : Option Bundle
  courseState : CourseState
  deriving DecidableEq, Repr

namespace App

/-- The state after the `useState` calls of the first render. -/
def init : AppState := ⟨"home", none, ⟨false, 0, .read⟩⟩

def startCourse (bundle : Bundle) (app : AppState) : AppState :=
  { app with activeBundle := some bundle, courseState := ⟨true, 0, .read⟩, view := "course_player" }

end App

/-- What `CoursePlayer` returns: the summary page, `null`, or the page of the
current module in read or in quiz mode. -/
inductive Rendered where
  | summary (bundleTitle : String)
  | null
  | read (title : String) (content : String)
  | quiz (title : String) (questions : List Question)
  deriving DecidableEq, Repr

/-- The state of a course being played: the `courseState` of `App` and the state
of the `QuizComponent` instance.  An instance exists only while the quiz page is
rendered; it is created in its initial state and `quiz` holds that initial
state whenever no instance exists. -/
structure PlayerState where
  courseState : CourseState
  quiz : QuizState

/-- The controls of the course page. -/
inductive Control where
  | readTab
  | quizTab
  | takeQuiz
  | selectOption (idx oIdx : Nat)
  | submit
  | nextModule
  deriving DecidableEq, Repr

namespace CoursePlayer

def bundlePolicies (activeBundle : Bundle) (policies : List Policy) : List Policy :=
  policies.filter (fun p => activeBundle.policyIds.contains p.id)

/-- The value `bundlePolicies[courseState.index]`; `none` is `undefined`. -/
def currentPolicy (activeBundle : Bundle) (policies : List Policy)
    (courseState : CourseState) : Option Policy :=
  (bundlePolicies activeBundle policies)[courseState.index]?

/-- Reading a property of `currentPolicy` throws a `TypeError` when it is
`undefined`. -/
def property {α : Type} (currentPolicy : Option Policy) (field : Policy → α) :
    Except JsError α :=
  match currentPolicy with
  | some p => .ok (field p)
  | none => .error .typeError

/-- The body of `CoursePlayer`, down to what it returns. -/
def render (activeBundle : Bundle) (policies : List Policy) (courseState : CourseState) :
    Except JsError Rendered :=
  let currentPolicy := currentPolicy activeBundle policies courseState
  if courseState.mode = .summary then .ok (.summary activeBundle.title)
  else if currentPolicy.isNone then .ok .null
  else do
    let title ← property currentPolicy Policy.title
    if courseState.mode = .read then
      let content ← property currentPolicy Policy.content
      pure (.read title content)
    else
      let questions ← property currentPolicy Policy.questions
      pure (.quiz title questions)

/-- The updater of the Read tab: `(p) => (\x7b ...p, mode: "read" \x7d)`. -/
def setModeRead (p : CourseState) : CourseState := { p with mode := .read }

/-- The updater of the Quiz tab and of the Take Competency Quiz button. -/
def setModeQuiz (p : CourseState) : CourseState := { p with mode := .quiz }

/-- The handler `onPass` handed to `QuizComponent`.  The test reads the
`courseState` of the render and the updater the state it is applied to; both are
the state the page was rendered from. -/
def onPass (activeBundle : Bundle) (policies : List Policy) (courseState : CourseState) :
    CourseState :=
  if courseState.index + 1 < (bundlePolicies activeBundle policies).length then
    { courseState with index := courseState.index + 1, mode := .read }
  else
    { courseState with mode := .summary }

/-- Whether the Next Module button is rendered:
`showResult && isCourseMode && isPassed`, with `isCourseMode` set. -/
def nextModuleOffered (questions : List Question) (quiz : QuizState) : Bool :=
  quiz.showResult && QuizComponent.isPassed questions quiz

/-- The effect of a control on the course being played, `none` when the page
rendered from the state does not show the control, or shows it disabled. -/
def step (activeBundle : Bundle) (policies : List Policy) (s : PlayerState) :
    Control → Option PlayerState :=
  fun action =>
  if s.courseState.mode = .summary then none
  else
    match currentPolicy activeBundle policies s.courseState with
    | none => none
    | some policy =>
      match action with
      | .readTab => some ⟨setModeRead s.courseState, QuizComponent.init⟩
      | .quizTab =>
        if s.courseState.mode = .read then some ⟨setModeQuiz s.courseState, QuizComponent.init⟩
        else some ⟨setModeQuiz s.courseState, s.quiz⟩
      | .takeQuiz =>
        if s.courseState.mode = .read then some ⟨setModeQuiz s.courseState, QuizComponent.init⟩
        else none
      | .selectOption idx oIdx =>
        if s.courseState.mode = .read then none
        else
          match policy.questions[idx]? with
          | none => none
          | some q =>
            if oIdx < q.options.length && !s.quiz.showResult then
              some { s with quiz := QuizComponent.selectOption idx oIdx s.quiz }
            else none
      | .submit =>
        if s.courseState.mode = .read then none
        else if decide (policy.questions.length > 0) && !s.quiz.showResult then
          some { s with quiz := QuizComponent.handleSubmit policy.questions s.quiz }
        else none
      | .nextModule =>
        if s.courseState.mode = .read then none
        else if nextModuleOffered policy.questions s.quiz then
          some ⟨onPass activeBundle policies s.courseState, QuizComponent.init⟩
        else none

/-- The course after a sequence of controls, a control that is not shown
leaving the state as it is. -/
def run (activeBundle : Bundle) (policies : List Policy) (s : PlayerState) :
    List Control → PlayerState
  | [] => s
  | action :: rest =>
    run activeBundle policies ((step activeBundle policies s action).getD s) rest

/-- The course state of a course as `startCourse` sets it, with no quiz yet. -/
def start (bundle : Bundle) (app : AppState) : PlayerState :=
  ⟨(App.startCourse bundle app).courseState, QuizComponent.init⟩

end CoursePlayer

/-! ## Lemmas on the list operations of the store -/

section ListLemmas

variable {α : Type}

theorem find_isSome_iff (idOf : α → String) (id : String) (xs : List α) :
    (xs.find? (fun y => idOf y == id)).isSome = true ↔ ∃ y ∈ xs, idOf y = id := by
  induction xs with
  | nil => simp
  | cons y ys ih =>
    by_cases h : idOf y = id
    · simp [List.find?_cons, h]
    · simp [List.find?_cons, h, ih]

theorem find_eq_none_iff (idOf : α → String) (id : String) (xs : List α) :
    xs.find? (fun y => idOf y == id) = none ↔ ∀ y ∈ xs, idOf y ≠ id := by
  simp

theorem map_replace_eq_replaceById (idOf : α → String) (x : α) (xs : List α) :
    xs.map (fun y => if idOf y == idOf x then x else y) = replaceById idOf x xs := by
  induction xs with
  | nil => rfl
  | cons y ys ih =>
    by_cases h : idOf y = idOf x
    · simpa [replaceById, h] using ih
    · simpa [replaceById, h] using ih

theorem filter_ne_eq_removeById (idOf : α → String) (id : String) (xs : List α) :
    xs.filter (fun y => idOf y != id) = removeById idOf id xs := by
  induction xs with
  | nil => rfl
  | cons y ys ih =>
    by_cases h : idOf y = id <;> simp [removeById, h, ih]

theorem filter_ne_of_absent (idOf : α → String) (id : String) (xs : List α)
    (h : ∀ y ∈ xs, idOf y ≠ id) : xs.filter (fun y => idOf y != id) = xs := by
  rw [List.filter_eq_self]
  intro y hy
  simpa using h y hy

theorem filter_map_replace (idOf : α → String) (x : α) (xs : List α) :
    (xs.map (fun y => if idOf y == idOf x then x else y)).filter (fun y => idOf y == idOf x)
      = List.replicate (xs.filter (fun y => idOf y == idOf x)).length x := by
  induction xs with
  | nil => rfl
  | cons y ys ih =>
    by_cases h : idOf y = idOf x
    · simpa [h, List.replicate_succ] using ih
    · simpa [h] using ih

end ListLemmas

/-! ## What the store operations return, in closed form -/

theorem savePolicy_eq (randomUUID : String) (policy : Policy) (ls : LocalStorage)
    (policies : List Policy) (h : policyService.listPolicies ls = .ok policies) :
    policyService.savePolicy randomUUID policy ls =
      .ok (upsertById Policy.id (fun p i => { p with id := i }) randomUUID policy policies,
        { ls with njra_policies := persist (upsertById Policy.id
          (fun p i => { p with id := i }) randomUUID policy policies) }) := by
  unfold policyService.listPolicies at h
  unfold policyService.savePolicy upsertById
  rw [h]
  by_cases hex : ∃ y ∈ policies, y.id = policy.id
  · have hs := (find_isSome_iff Policy.id policy.id policies).2 hex
    obtain ⟨w, hw⟩ := Option.isSome_iff_exists.1 hs
    simp only [bind, Except.bind, pure, Except.pure, hw, if_pos hex,
      map_replace_eq_replaceById Policy.id policy policies]
  · have hn : policies.find? (fun p => p.id == policy.id) = none := by
      rw [find_eq_none_iff Policy.id]
      intro y hy hid
      exact hex ⟨y, hy, hid⟩
    simp only [bind, Except.bind, pure, Except.pure, hn, if_neg hex]

theorem saveBundle_eq (randomUUID : String) (bundle : Bundle) (ls : LocalStorage)
    (bundles : List Bundle) (h : policyService.listBundles ls = .ok bundles) :
    policyService.saveBundle randomUUID bundle ls =
      .ok (upsertById Bundle.id (fun b i => { b with id := i }) randomUUID bundle bundles,
        { ls with njra_bundles := persist (upsertById Bundle.id
          (fun b i => { b with id := i }) randomUUID bundle bundles) }) := by
  unfold policyService.listBundles at h
  unfold policyService.saveBundle upsertById
  rw [h]
  by_cases hex : ∃ y ∈ bundles, y.id = bundle.id
  · have hs := (find_isSome_iff Bundle.id bundle.id bundles).2 hex
    obtain ⟨w, hw⟩ := Option.isSome_iff_exists.1 hs
    simp only [bind, Except.bind, pure, Except.pure, hw, if_pos hex,
      map_replace_eq_replaceById Bundle.id bundle bundles]
  · have hn : bundles.find? (fun b => b.id == bundle.id) = none := by
      rw [find_eq_none_iff Bundle.id]
      intro y hy hid
      exact hex ⟨y, hy, hid⟩
    simp only [bind, Except.bind, pure, Except.pure, hn, if_neg hex]

theorem deletePolicy_eq (id : String) (ls : LocalStorage)
    (policies : List Policy) (h : policyService.listPolicies ls = .ok policies) :
    policyService.deletePolicy id ls =
      .ok (policies.filter (fun p => p.id != id),
        { ls with njra_policies := persist (policies.filter (fun p => p.id != id)) }) := by
  unfold policyService.listPolicies at h
  unfold policyService.deletePolicy
  rw [h]
  rfl

theorem deleteBundle_eq (id : String) (ls : LocalStorage)
    (bundles : List Bundle) (h : policyService.listBundles ls = .ok bundles) :
    policyService.deleteBundle id ls =
      .ok (bundles.filter (fun b => b.id != id),
        { ls with njra_bundles := persist (bundles.filter (fun b => b.id != id)) }) := by
  unfold policyService.listBundles at h
  unfold policyService.deleteBundle
  rw [h]
  rfl

theorem updateCategory_eq (id category : String) (ls : LocalStorage)
    (policies : List Policy) (h : policyService.listPolicies ls = .ok policies) :
    policyService.updateCategory id category ls =
      .ok (policies.map (fun p => if p.id == id then { p with category := category } else p),
        { ls with njra_policies := persist (policies.map
          (fun p => if p.id == id then { p with category := category } else p)) }) := by
  unfold policyService.listPolicies at h
  unfold policyService.updateCategory
  rw [h]
  rfl

theorem listPolicies_persist (ls : LocalStorage) (policies : List Policy) :
    policyService.listPolicies { ls with njra_policies := persist policies } = .ok policies := rfl

theorem listBundles_persist (ls : LocalStorage) (bundles : List Bundle) :
    policyService.listBundles { ls with njra_bundles := persist bundles } = .ok bundles := rfl

/-! ## Claims on the data store -/

/-- C1 (as amended). When the collection the store holds has exactly one record
with the identifier of the saved policy, `savePolicy` followed by `listPolicies`
returns a collection with exactly one record of that identifier, equal to the
saved policy.  When it has no such record, `listPolicies` returns the original
collection followed by the saved policy under the newly generated identifier. -/
theorem savePolicy_then_listPolicies (randomUUID : String) (policy : Policy)
    (ls : LocalStorage) (policies : List Policy)
    (h : policyService.listPolicies ls = .ok policies) :
    ∃ updated ls1, policyService.savePolicy randomUUID policy ls = .ok (updated, ls1) ∧
      policyService.listPolicies ls1 = .ok updated ∧
      ((policies.filter (fun p => p.id == policy.id)).length = 1 →
        updated.filter (fun p => p.id == policy.id) = [policy]) ∧
      ((∀ p ∈ policies, p.id ≠ policy.id) →
        updated = policies ++ [{ policy with id := randomUUID }]) := by
  refine ⟨_, _, savePolicy_eq randomUUID policy ls policies h, rfl, ?_, ?_⟩
  · intro hone
    have hex : ∃ y ∈ policies, y.id = policy.id := by
      have hpos : 0 < (policies.filter (fun p => p.id == policy.id)).length := by omega
      obtain ⟨y, hy⟩ := List.exists_mem_of_length_pos hpos
      rw [List.mem_filter] at hy
      exact ⟨y, hy.1, by simpa using hy.2⟩
    rw [upsertById, if_pos hex, ← map_replace_eq_replaceById, filter_map_replace, hone]
    rfl
  · intro habs
    have hex : ¬ ∃ y ∈ policies, y.id = policy.id := by
      rintro ⟨y, hy, hid⟩
      exact habs y hy hid
    rw [upsertById, if_neg hex]

/-- Witness for C1 (as amended): the seed policy saved again over the seed. -/
theorem savePolicy_then_listPolicies_witness :
    ∃ updated ls1,
      policyService.savePolicy "uuid-1" ⟨"demo-001", "RT-01", "Airway", "Documentation", "", []⟩
        LocalStorage.fresh = .ok (updated, ls1) ∧
      policyService.listPolicies ls1 = .ok updated ∧
      updated.filter (fun p => p.id == "demo-001")
        = [⟨"demo-001", "RT-01", "Airway", "Documentation", "", []⟩] := by
  obtain ⟨updated, ls1, h1, h2, h3, _⟩ :=
    savePolicy_then_listPolicies "uuid-1" ⟨"demo-001", "RT-01", "Airway", "Documentation", "", []⟩
      LocalStorage.fresh defaultPolicies rfl
  exact ⟨updated, ls1, h1, h2, h3 (by decide)⟩

/-- Counterexample to C1 as stated: a policy whose identifier `p-1` no record of
the seed collection has is saved under the generated identifier, and the list
returned afterwards holds no record with identifier `p-1`.  Saved over a
collection in which two records have identifier `p-1`, it replaces both, and
the collection returned and persisted holds two records with that identifier. -/
theorem savePolicy_unknown_id_not_listed :
    policyService.savePolicy "uuid-1" ⟨"p-1", "X-01", "Title", "Documentation", "", []⟩
        LocalStorage.fresh
      = .ok (defaultPolicies ++ [⟨"uuid-1", "X-01", "Title", "Documentation", "", []⟩],
          ⟨none, persist (defaultPolicies ++ [⟨"uuid-1", "X-01", "Title", "Documentation", "", []⟩]),
            none⟩) ∧
    policyService.listPolicies
        ⟨none, persist (defaultPolicies ++ [⟨"uuid-1", "X-01", "Title", "Documentation", "", []⟩]), none⟩
      = .ok (defaultPolicies ++ [⟨"uuid-1", "X-01", "Title", "Documentation", "", []⟩]) ∧
    ((defaultPolicies ++ [(⟨"uuid-1", "X-01", "Title", "Documentation", "", []⟩ : Policy)]).filter
        (fun p => p.id == "p-1")).length = 0 ∧
    policyService.savePolicy "uuid-1" ⟨"p-1", "X-01", "Title", "Documentation", "", []⟩
        ⟨none, persist [⟨"p-1", "A", "", "", "", []⟩, ⟨"p-1", "B", "", "", "", []⟩], none⟩
      = .ok ([⟨"p-1", "X-01", "Title", "Documentation", "", []⟩,
            ⟨"p-1", "X-01", "Title", "Documentation", "", []⟩],
          ⟨none, persist [⟨"p-1", "X-01", "Title", "Documentation", "", []⟩,
            ⟨"p-1", "X-01", "Title", "Documentation", "", []⟩], none⟩) := by
  refine ⟨?_, rfl, by decide, by rfl⟩
  rw [savePolicy_eq "uuid-1" _ LocalStorage.fresh defaultPolicies rfl]
  have hex : ¬ ∃ y ∈ defaultPolicies, y.id = "p-1" := by decide
  simp only [upsertById, if_neg hex]
  rfl

/-- C2. When the collection has a record with the identifier of the saved
policy, `savePolicy` returns and persists a collection of the same length that
holds the saved policy at every position whose record had that identifier and
the original record at every other position. -/
theorem savePolicy_existing_replaces_in_place (randomUUID : String) (policy : Policy)
    (ls : LocalStorage) (policies : List Policy)
    (h : policyService.listPolicies ls = .ok policies)
    (hex : ∃ p ∈ policies, p.id = policy.id) :
    ∃ updated, policyService.savePolicy randomUUID policy ls
        = .ok (updated, { ls with njra_policies := persist updated }) ∧
      updated.length = policies.length ∧
      ∀ (i : Nat) (hi : i < policies.length) (hu : i < updated.length),
        (policies[i].id = policy.id → updated[i] = policy) ∧
        (policies[i].id ≠ policy.id → updated[i] = policies[i]) := by
  refine ⟨_, savePolicy_eq randomUUID policy ls policies h, ?_, ?_⟩
  · rw [upsertById, if_pos hex, ← map_replace_eq_replaceById, List.length_map]
  · intro i hi hu
    have key : ∀ (l : List Policy) (hl : i < l.length),
        l = policies.map (fun p => if p.id == policy.id then policy else p) →
        (policies[i].id = policy.id → l[i] = policy) ∧
        (policies[i].id ≠ policy.id → l[i] = policies[i]) := by
      intro l hl e
      subst e
      constructor
      · intro hid
        simp [hid]
      · intro hid
        simp [hid]
    exact key _ hu (by rw [upsertById, if_pos hex, ← map_replace_eq_replaceById])

/-- Witness for C2: the seed policy replaced in the seed collection. -/
theorem savePolicy_existing_replaces_in_place_witness :
    ∃ updated, policyService.savePolicy "uuid-1"
        ⟨"demo-001", "RT-01", "Airway", "Documentation", "", []⟩ LocalStorage.fresh
        = .ok (updated, { LocalStorage.fresh with njra_policies := persist updated }) ∧
      updated.length = defaultPolicies.length ∧
      ∀ (i : Nat) (hi : i < defaultPolicies.length) (hu : i < updated.length),
        (defaultPolicies[i].id = "demo-001" →
          updated[i] = ⟨"demo-001", "RT-01", "Airway", "Documentation", "", []⟩) ∧
        (defaultPolicies[i].id ≠ "demo-001" → updated[i] = defaultPolicies[i]) :=
  savePolicy_existing_replaces_in_place "uuid-1"
    ⟨"demo-001", "RT-01", "Airway", "Documentation", "", []⟩ LocalStorage.fresh defaultPolicies rfl
    ⟨_, List.mem_singleton_self _, rfl⟩

/-- C3. When the collection has no record with the identifier of the saved
policy, `savePolicy` returns and persists the original collection followed by
one new record, which has the newly generated identifier and the other fields
of the saved policy. -/
theorem savePolicy_new_appends (randomUUID : String) (policy : Policy)
    (ls : LocalStorage) (policies : List Policy)
    (h : policyService.listPolicies ls = .ok policies)
    (habs : ∀ p ∈ policies, p.id ≠ policy.id) :
    ∃ created, policyService.savePolicy randomUUID policy ls
        = .ok (policies ++ [created],
            { ls with njra_policies := persist (policies ++ [created]) }) ∧
      created.id = randomUUID ∧ created.code = policy.code ∧ created.title = policy.title ∧
      created.category = policy.category ∧ created.content = policy.content ∧
      created.questions = policy.questions := by
  have hex : ¬ ∃ y ∈ policies, y.id = policy.id := by
    rintro ⟨y, hy, hid⟩
    exact habs y hy hid
  refine ⟨{ policy with id := randomUUID }, ?_, rfl, rfl, rfl, rfl, rfl, rfl⟩
  rw [savePolicy_eq randomUUID policy ls policies h]
  simp only [upsertById, if_neg hex]

/-- Witness for C3: a policy with a new identifier saved over the seed. -/
theorem savePolicy_new_appends_witness :
    ∃ created, policyService.savePolicy "uuid-1"
        ⟨"p-1", "X-01", "Title", "Documentation", "", []⟩ LocalStorage.fresh
        = .ok (defaultPolicies ++ [created],
            { LocalStorage.fresh with njra_policies := persist (defaultPolicies ++ [created]) }) ∧
      created.id = "uuid-1" ∧ created.code = "X-01" ∧ created.title = "Title" ∧
      created.category = "Documentation" ∧ created.content = "" ∧
      created.questions = [] :=
  savePolicy_new_appends "uuid-1" ⟨"p-1", "X-01", "Title", "Documentation", "", []⟩
    LocalStorage.fresh defaultPolicies rfl (by decide)

/-- C4. When no record of the collection has the given identifier,
`deletePolicy` is fulfilled (no error) with the collection unchanged, and
persists that same collection. -/
theorem deletePolicy_absent_unchanged (id : String) (ls : LocalStorage)
    (policies : List Policy)
    (h : policyService.listPolicies ls = .ok policies)
    (habs : ∀ p ∈ policies, p.id ≠ id) :
    policyService.deletePolicy id ls
      = .ok (policies, { ls with njra_policies := persist policies }) := by
  rw [deletePolicy_eq id ls policies h, filter_ne_of_absent Policy.id id policies habs]

/-- Witness for C4: an unknown identifier deleted from the seed collection. -/
theorem deletePolicy_absent_unchanged_witness :
    policyService.deletePolicy "p-1" LocalStorage.fresh
      = .ok (defaultPolicies, { LocalStorage.fresh with njra_policies := persist defaultPolicies }) :=
  deletePolicy_absent_unchanged "p-1" LocalStorage.fresh defaultPolicies rfl (by decide)

/-- C5. The collection `deletePolicy` returns and persists has no record with
the given identifier, is a subsequence of the original collection (same
relative order), and keeps every record with another identifier as often as it
occurred; deleting the same identifier again returns the same collection and
leaves the storage as it is. -/
theorem deletePolicy_removes_and_is_idempotent (id : String) (ls : LocalStorage)
    (policies : List Policy)
    (h : policyService.listPolicies ls = .ok policies) :
    ∃ remaining ls1, policyService.deletePolicy id ls = .ok (remaining, ls1) ∧
      ls1 = { ls with njra_policies := persist remaining } ∧
      (∀ p ∈ remaining, p.id ≠ id) ∧
      remaining.Sublist policies ∧
      (∀ p : Policy, p.id ≠ id → remaining.count p = policies.count p) ∧
      policyService.deletePolicy id ls1 = .ok (remaining, ls1) := by
  refine ⟨_, _, deletePolicy_eq id ls policies h, rfl, ?_, List.filter_sublist _, ?_, ?_⟩
  · intro p hp
    simpa using (List.mem_filter.1 hp).2
  · intro p hp
    rw [List.count_filter]
    simpa using hp
  · rw [deletePolicy_eq id { ls with njra_policies := persist (policies.filter (fun p => p.id != id)) }
      (policies.filter (fun p => p.id != id)) rfl, List.filter_filter]
    simp

/-- Witness for C5: the seed policy deleted from the seed collection. -/
theorem deletePolicy_removes_and_is_idempotent_witness :
    ∃ remaining ls1, policyService.deletePolicy "demo-001" LocalStorage.fresh
        = .ok (remaining, ls1) ∧
      ls1 = { LocalStorage.fresh with njra_policies := persist remaining } ∧
      (∀ p ∈ remaining, p.id ≠ "demo-001") ∧
      remaining.Sublist defaultPolicies ∧
      (∀ p : Policy, p.id ≠ "demo-001" → remaining.count p = defaultPolicies.count p) ∧
      policyService.deletePolicy "demo-001" ls1 = .ok (remaining, ls1) :=
  deletePolicy_removes_and_is_idempotent "demo-001" LocalStorage.fresh defaultPolicies rfl

/-- C6. The collection `updateCategory` returns and persists has the length of
the original one; at every position the record keeps its identifier, code,
title, content and questions, has the given category when its identifier is the
given one, and is the original record otherwise.  When no record has the given
identifier the collection is returned unchanged. -/
theorem updateCategory_sets_one_field (id category : String) (ls : LocalStorage)
    (policies : List Policy)
    (h : policyService.listPolicies ls = .ok policies) :
    ∃ updated, policyService.updateCategory id category ls
        = .ok (updated, { ls with njra_policies := persist updated }) ∧
      updated.length = policies.length ∧
      (∀ (i : Nat) (hi : i < policies.length) (hu : i < updated.length),
        updated[i].id = policies[i].id ∧ updated[i].code = policies[i].code ∧
        updated[i].title = policies[i].title ∧ updated[i].content = policies[i].content ∧
        updated[i].questions = policies[i].questions ∧
        (policies[i].id = id → updated[i].category = category) ∧
        (policies[i].id ≠ id → updated[i] = policies[i])) ∧
      ((∀ p ∈ policies, p.id ≠ id) → updated = policies) := by
  refine ⟨_, updateCategory_eq id category ls policies h, List.length_map _ _, ?_, ?_⟩
  · intro i hi hu
    by_cases hid : policies[i].id = id
    · simp [hid]
    · simp [hid]
  · intro habs
    conv_rhs => rw [← List.map_id policies]
    apply List.map_congr_left
    intro p hp
    simp [habs p hp]

/-- Witness for C6: the category of the seed policy changed. -/
theorem updateCategory_sets_one_field_witness :
    ∃ updated, policyService.updateCategory "demo-001" "Documentation" LocalStorage.fresh
        = .ok (updated, { LocalStorage.fresh with njra_policies := persist updated }) ∧
      updated.length = defaultPolicies.length ∧
      (∀ (i : Nat) (hi : i < defaultPolicies.length) (hu : i < updated.length),
        updated[i].id = defaultPolicies[i].id ∧ updated[i].code = defaultPolicies[i].code ∧
        updated[i].title = defaultPolicies[i].title ∧
        updated[i].content = defaultPolicies[i].content ∧
        updated[i].questions = defaultPolicies[i].questions ∧
        (defaultPolicies[i].id = "demo-001" → updated[i].category = "Documentation") ∧
        (defaultPolicies[i].id ≠ "demo-001" → updated[i] = defaultPolicies[i])) ∧
      ((∀ p ∈ defaultPolicies, p.id ≠ "demo-001") → updated = defaultPolicies) :=
  updateCategory_sets_one_field "demo-001" "Documentation" LocalStorage.fresh defaultPolicies rfl

/-- C7. `saveBundle` and `savePolicy` are the same upsert by identifier, and
`deleteBundle` and `deletePolicy` the same removal by identifier, each on its own
collection: the result is the one function `upsertById` (replace in place the
records whose identifier matches, else append under the generated identifier),
respectively `removeById` (drop the records with the identifier, keep the rest
in order), and it is what is persisted.  Removing an identifier no bundle has
returns the bundle collection unchanged. -/
theorem bundle_operations_follow_policy_contract (randomUUID id : String)
    (policy : Policy) (bundle : Bundle) (ls : LocalStorage)
    (policies : List Policy) (bundles : List Bundle)
    (hp : policyService.listPolicies ls = .ok policies)
    (hb : policyService.listBundles ls = .ok bundles) :
    policyService.saveBundle randomUUID bundle ls
      = .ok (upsertById Bundle.id (fun b i => { b with id := i }) randomUUID bundle bundles,
          { ls with njra_bundles := persist (upsertById Bundle.id
            (fun b i => { b with id := i }) randomUUID bundle bundles) }) ∧
    policyService.savePolicy randomUUID policy ls
      = .ok (upsertById Policy.id (fun p i => { p with id := i }) randomUUID policy policies,
          { ls with njra_policies := persist (upsertById Policy.id
            (fun p i => { p with id := i }) randomUUID policy policies) }) ∧
    policyService.deleteBundle id ls
      = .ok (removeById Bundle.id id bundles,
          { ls with njra_bundles := persist (removeById Bundle.id id bundles) }) ∧
    policyService.deletePolicy id ls
      = .ok (removeById Policy.id id policies,
          { ls with njra_policies := persist (removeById Policy.id id policies) }) ∧
    ((∀ b ∈ bundles, b.id ≠ id) → removeById Bundle.id id bundles = bundles) := by
  refine ⟨saveBundle_eq randomUUID bundle ls bundles hb,
    savePolicy_eq randomUUID policy ls policies hp, ?_, ?_, ?_⟩
  · rw [deleteBundle_eq id ls bundles hb, filter_ne_eq_removeById]
  · rw [deletePolicy_eq id ls policies hp, filter_ne_eq_removeById]
  · intro habs
    rw [← filter_ne_eq_removeById]
    exact filter_ne_of_absent Bundle.id id bundles habs

/-- Witness for C7: the operations on a storage in which nothing was set. -/
theorem bundle_operations_follow_policy_contract_witness :
    policyService.saveBundle "uuid-1" ⟨"bundle-1", "Title", "", []⟩ LocalStorage.fresh
      = .ok ([⟨"bundle-1", "Title", "", []⟩],
          ⟨none, none, persist [⟨"bundle-1", "Title", "", []⟩]⟩) ∧
    policyService.deleteBundle "bundle-1" LocalStorage.fresh = .ok ([], ⟨none, none, persist []⟩) := by
  obtain ⟨h1, _, h3, _, _⟩ :=
    bundle_operations_follow_policy_contract "uuid-1" "bundle-1"
      ⟨"demo-001", "", "", "", "", []⟩ ⟨"bundle-1", "Title", "", []⟩ LocalStorage.fresh
      defaultPolicies defaultBundles rfl rfl
  have hex : ∃ y ∈ defaultBundles, y.id = "bundle-1" := ⟨_, List.mem_singleton_self _, rfl⟩
  constructor
  · rw [h1]
    simp only [upsertById, if_pos hex]
    rfl
  · rw [h3]
    rfl

/-- C8. `listPolicies` (`listBundles`) is fulfilled with the seed collection
when its item was never set, and with exactly the collection last persisted
otherwise, the empty collection included; after each mutating operation it is
fulfilled with the collection that operation returned. -/
theorem list_returns_seed_or_last_persisted (ls : LocalStorage)
    (policies : List Policy) (bundles : List Bundle)
    (randomUUID id category : String) (policy : Policy) (bundle : Bundle) :
    policyService.listPolicies { ls with njra_policies := none } = .ok defaultPolicies ∧
    policyService.listBundles { ls with njra_bundles := none } = .ok defaultBundles ∧
    policyService.listPolicies { ls with njra_policies := persist policies } = .ok policies ∧
    policyService.listBundles { ls with njra_bundles := persist bundles } = .ok bundles ∧
    policyService.listPolicies { ls with njra_policies := persist [] } = .ok [] ∧
    policyService.listBundles { ls with njra_bundles := persist [] } = .ok [] ∧
    (policyService.savePolicy randomUUID policy ls).bind (fun r => policyService.listPolicies r.2)
      = (policyService.savePolicy randomUUID policy ls).map Prod.fst ∧
    (policyService.deletePolicy id ls).bind (fun r => policyService.listPolicies r.2)
      = (policyService.deletePolicy id ls).map Prod.fst ∧
    (policyService.updateCategory id category ls).bind (fun r => policyService.listPolicies r.2)
      = (policyService.updateCategory id category ls).map Prod.fst ∧
    (policyService.saveBundle randomUUID bundle ls).bind (fun r => policyService.listBundles r.2)
      = (policyService.saveBundle randomUUID bundle ls).map Prod.fst ∧
    (policyService.deleteBundle id ls).bind (fun r => policyService.listBundles r.2)
      = (policyService.deleteBundle id ls).map Prod.fst ∧
    (policyService.deletePolicy "demo-001" LocalStorage.fresh).bind
      (fun r => policyService.listPolicies r.2) = .ok [] := by
  refine ⟨rfl, rfl, rfl, rfl, rfl, rfl, ?_, ?_, ?_, ?_, ?_, ?_⟩
  · cases hl : policyService.listPolicies ls with
    | ok ps => rw [savePolicy_eq randomUUID policy ls ps hl]; rfl
    | error e =>
      unfold policyService.listPolicies at hl
      unfold policyService.savePolicy
      rw [hl]; rfl
  · cases hl : policyService.listPolicies ls with
    | ok ps => rw [deletePolicy_eq id ls ps hl]; rfl
    | error e =>
      unfold policyService.listPolicies at hl
      unfold policyService.deletePolicy
      rw [hl]; rfl
  · cases hl : policyService.listPolicies ls with
    | ok ps => rw [updateCategory_eq id category ls ps hl]; rfl
    | error e =>
      unfold policyService.listPolicies at hl
      unfold policyService.updateCategory
      rw [hl]; rfl
  · cases hl : policyService.listBundles ls with
    | ok bs => rw [saveBundle_eq randomUUID bundle ls bs hl]; rfl
    | error e =>
      unfold policyService.listBundles at hl
      unfold policyService.saveBundle
      rw [hl]; rfl
  · cases hl : policyService.listBundles ls with
    | ok bs => rw [deleteBundle_eq id ls bs hl]; rfl
    | error e =>
      unfold policyService.listBundles at hl
      unfold policyService.deleteBundle
      rw [hl]; rfl
  · rw [deletePolicy_eq "demo-001" LocalStorage.fresh defaultPolicies rfl]
    rfl

/-! ## Claims on the quiz evaluator -/

theorem countCorrect_eq (userAnswers : Nat → Option Nat) (questions : List Question)
    (idx correctCount : Nat) :
    QuizComponent.countCorrect userAnswers questions idx correctCount
      = correctCount + ((List.range questions.length).filter
          (fun i => userAnswers (idx + i) = (questions[i]?).map Question.correctIndex)).length := by
  induction questions generalizing idx correctCount with
  | nil => simp [QuizComponent.countCorrect]
  | cons q rest ih =>
    rw [QuizComponent.countCorrect, ih, List.length_cons, List.range_succ_eq_map,
      List.filter_cons, List.filter_map]
    have hfun : ((fun i => decide (userAnswers (idx + i)
          = ((q :: rest)[i]?).map Question.correctIndex)) ∘ Nat.succ)
        = (fun i => decide (userAnswers (idx + 1 + i) = (rest[i]?).map Question.correctIndex)) := by
      funext i
      simp [Nat.succ_eq_add_one, Nat.add_assoc, Nat.add_comm 1 i]
    rw [hfun]
    by_cases hq : userAnswers idx = some q.correctIndex
    · simp [hq, Nat.add_assoc, Nat.add_comm 1]
    · simp [hq]

/-- C9. The score `handleSubmit` sets is the number of question positions `i`
at which the answer mapping has an entry equal to the correct index of question
`i`.  Questions with correct indices `[1, 0]` and answers `0 ↦ 1, 1 ↦ 1` give
score 1. -/
theorem handleSubmit_score (questions : List Question) (s : QuizState) :
    (QuizComponent.handleSubmit questions s).score
      = ((List.range questions.length).filter
          (fun i => s.userAnswers i = (questions[i]?).map Question.correctIndex)).length ∧
    (QuizComponent.handleSubmit [⟨"a", ["x", "y"], 1⟩, ⟨"b", ["x", "y"], 0⟩]
        ⟨fun i => if i = 0 then some 1 else if i = 1 then some 1 else none, false, 0⟩).score = 1 := by
  constructor
  · simp [QuizComponent.handleSubmit, countCorrect_eq]
  · decide

/-! ### Rounding lemmas -/

theorem roundTiesEven_le (a b M : Nat) (h : 2 * a < (2 * M + 1) * b) :
    roundTiesEven a b ≤ M := by
  have hdm : b * (a / b) + a % b = a := Nat.div_add_mod a b
  have hexp : (2 * M + 1) * b = 2 * (b * M) + b := by ring
  have hlow : a / b ≤ M := by
    by_contra hc
    have h1 : b * (M + 1) ≤ b * (a / b) := Nat.mul_le_mul_left b (by omega)
    have h2 : b * (M + 1) = b * M + b := by ring
    omega
  have hup : b ≤ 2 * (a % b) → a / b + 1 ≤ M := by
    intro hr
    by_contra hc
    have h1 : b * M ≤ b * (a / b) := Nat.mul_le_mul_left b (by omega)
    omega
  unfold roundTiesEven
  simp only
  split_ifs with h1 h2 h3
  · exact hlow
  · exact hup (by omega)
  · exact hlow
  · exact hup (by omega)

theorem le_roundTiesEven (a b M : Nat) (hb : 0 < b) (h : 2 * (M * b) < 2 * a + b) :
    M ≤ roundTiesEven a b := by
  have hdm : b * (a / b) + a % b = a := Nat.div_add_mod a b
  have hr : a % b < b := Nat.mod_lt a hb
  have hcomm : M * b = b * M := Nat.mul_comm M b
  have hlow : 2 * (a % b) ≤ b → M ≤ a / b := by
    intro hle
    by_contra hc
    have h1 : b * (a / b + 1) ≤ b * M := Nat.mul_le_mul_left b (by omega)
    have h2 : b * (a / b + 1) = b * (a / b) + b := by ring
    omega
  have hup : M ≤ a / b + 1 := by
    by_contra hc
    have h1 : b * (a / b + 2) ≤ b * M := Nat.mul_le_mul_left b (by omega)
    have h2 : b * (a / b + 2) = b * (a / b) + 2 * b := by ring
    omega
  unfold roundTiesEven
  simp only
  split_ifs with h1 h2 h3
  · exact hlow (by omega)
  · exact hup
  · exact hlow (by omega)
  · exact hup

theorem normShift_eq (a b : Nat) (fuel k0 k : Nat) (h0 : k0 ≤ k) (hf : k < k0 + fuel)
    (hk : 2 ^ 52 * b ≤ a * 2 ^ k)
    (hmin : ∀ j, k0 ≤ j → j < k → ¬ 2 ^ 52 * b ≤ a * 2 ^ j) :
    normShift a b fuel k0 = k := by
  induction fuel generalizing k0 with
  | zero => omega
  | succ fuel ih =>
    unfold normShift
    by_cases hP : 2 ^ 52 * b ≤ a * 2 ^ k0
    · rw [if_pos hP]
      by_contra hne
      exact hmin k0 (le_refl _) (by omega) hP
    · rw [if_neg hP]
      have hne : k0 ≠ k := by
        rintro rfl
        exact hP hk
      exact ih (k0 + 1) (by omega) (by omega) (fun j hj hjk => hmin j (by omega) hjk)

theorem normShift_spec (a b : Nat) (fuel k0 : Nat)
    (hex : ∃ j, k0 ≤ j ∧ j < k0 + fuel ∧ 2 ^ 52 * b ≤ a * 2 ^ j) :
    2 ^ 52 * b ≤ a * 2 ^ normShift a b fuel k0 ∧ k0 ≤ normShift a b fuel k0 ∧
      ∀ j, k0 ≤ j → j < normShift a b fuel k0 → ¬ 2 ^ 52 * b ≤ a * 2 ^ j := by
  induction fuel generalizing k0 with
  | zero =>
    obtain ⟨j, h1, h2, _⟩ := hex
    omega
  | succ fuel ih =>
    unfold normShift
    by_cases hP : 2 ^ 52 * b ≤ a * 2 ^ k0
    · rw [if_pos hP]
      exact ⟨hP, le_refl _, fun j h1 h2 => by omega⟩
    · rw [if_neg hP]
      obtain ⟨j, h1, h2, h3⟩ := hex
      have hne : k0 ≠ j := by
        rintro rfl
        exact hP h3
      obtain ⟨r1, r2, r3⟩ := ih (k0 + 1) ⟨j, by omega, by omega, h3⟩
      refine ⟨r1, by omega, ?_⟩
      intro i hi1 hi2
      by_cases hik : i = k0
      · rw [hik]
        exact hP
      · exact r3 i (by omega) hi2

theorem roundBinary64_8_10 : roundBinary64 8 10 = 7205759403792794 / 2 ^ 53 := by
  have h : normShift 8 10 106 0 = 53 := by decide
  simp only [roundBinary64, h, roundTiesEven]
  norm_num

theorem literal_le_dyadic (r k : Nat) (h : 7205759403792794 * 2 ^ k ≤ r * 2 ^ 53) :
    (7205759403792794 : ℚ) / 2 ^ 53 ≤ (r : ℚ) / 2 ^ k := by
  rw [div_le_div_iff₀ (by positivity) (by positivity)]
  exact_mod_cast h

theorem dyadic_lt_literal (r k : Nat) (h : r * 2 ^ 53 < 7205759403792794 * 2 ^ k) :
    (r : ℚ) / 2 ^ k < (7205759403792794 : ℚ) / 2 ^ 53 := by
  rw [div_lt_div_iff₀ (by positivity) (by positivity)]
  exact_mod_cast h

/-- At four fifths or more the quotient rounds to the literal `0.8` or above. -/
theorem literal_le_roundBinary64 (s n : Nat) (hn0 : 0 < n) (hs : s ≤ n)
    (h : 4 * n ≤ 5 * s) : (7205759403792794 : ℚ) / 2 ^ 53 ≤ roundBinary64 s n := by
  unfold roundBinary64
  by_cases hsn : s = n
  · subst hsn
    have hk : normShift s s 106 0 = 52 := by
      apply normShift_eq s s 106 0 52 (by omega) (by omega) (by omega)
      intro j _ hj hle
      have h1 : 2 ^ j < 2 ^ 52 := Nat.pow_lt_pow_right (by omega) hj
      have h2 : s * 2 ^ j < s * 2 ^ 52 := mul_lt_mul_of_pos_left h1 hn0
      omega
    simp only [hk]
    apply literal_le_dyadic
    have hM : 2 ^ 52 ≤ roundTiesEven (s * 2 ^ 52) s :=
      le_roundTiesEven _ _ _ hn0 (by omega)
    omega
  · have hk : normShift s n 106 0 = 53 := by
      apply normShift_eq s n 106 0 53 (by omega) (by omega) (by omega)
      intro j _ hj hle
      have h1 : 2 ^ j ≤ 2 ^ 52 := Nat.pow_le_pow_right (by omega) (by omega)
      have h2 : s * 2 ^ j ≤ s * 2 ^ 52 := Nat.mul_le_mul_left s h1
      omega
    simp only [hk]
    apply literal_le_dyadic
    have hM : 7205759403792794 ≤ roundTiesEven (s * 2 ^ 53) n :=
      le_roundTiesEven _ _ _ hn0 (by omega)
    omega

/-- Below four fifths the quotient rounds below the literal `0.8`. -/
theorem roundBinary64_lt_literal (s n : Nat) (hs0 : 0 < s) (hn : n < 2 ^ 53)
    (h : 5 * s < 4 * n) : roundBinary64 s n < (7205759403792794 : ℚ) / 2 ^ 53 := by
  unfold roundBinary64
  obtain ⟨hP, _, hmin⟩ := normShift_spec s n 106 0 ⟨105, by omega, by omega, by omega⟩
  generalize normShift s n 106 0 = k at hP hmin
  simp only
  have hk53 : 53 ≤ k := by
    by_contra hc
    have h1 : 2 ^ k ≤ 2 ^ 52 := Nat.pow_le_pow_right (by omega) (by omega)
    have h2 : s * 2 ^ k ≤ s * 2 ^ 52 := Nat.mul_le_mul_left s h1
    omega
  apply dyadic_lt_literal
  by_cases hk : k = 53
  · subst hk
    have hM : roundTiesEven (s * 2 ^ 53) n ≤ 7205759403792793 :=
      roundTiesEven_le _ _ _ (by omega)
    omega
  · have hprev := hmin (k - 1) (by omega) (by omega)
    have hpow : 2 ^ k = 2 * 2 ^ (k - 1) := by
      rw [← pow_succ']
      congr 1
      omega
    have hmul : s * 2 ^ k = 2 * (s * 2 ^ (k - 1)) := by
      rw [hpow]
      ring
    have hM : roundTiesEven (s * 2 ^ k) n ≤ 2 ^ 53 :=
      roundTiesEven_le _ _ _ (by omega)
    have hT : 2 ^ 54 ≤ 2 ^ k := Nat.pow_le_pow_right (by omega) (by omega)
    omega

theorem div_ge_literal_iff (s n : Nat) (hn0 : 0 < n) (hs : s ≤ n) (hn : n < 2 ^ 53) :
    (Number.div s n).ge literal_0_8 = true ↔ 4 * n ≤ 5 * s := by
  have hn1 : n ≠ 0 := by omega
  unfold Number.div literal_0_8
  rw [roundBinary64_8_10, if_neg hn1]
  by_cases hs0 : s = 0
  · subst hs0
    simp only [if_true, Number.ge, decide_eq_true_eq]
    constructor
    · intro h
      norm_num at h
    · intro h
      omega
  · rw [if_neg hs0]
    simp only [Number.ge, decide_eq_true_eq]
    constructor
    · intro h
      by_contra hlt
      have := roundBinary64_lt_literal s n (by omega) hn (by omega)
      exact absurd h (not_le.2 this)
    · intro h
      exact literal_le_roundBinary64 s n hn0 hs h

/-- C10. For a score between 0 and the number of questions, the verdict
`isPassed` is true exactly when there is at least one question and the score
is at least four fifths of the number of questions (`s / n >= 0.8` on rationals,
that is `5 * s >= 4 * n`).  A quiz without questions never passes, whatever the
score; a quiz with at least one question and every question answered correctly
passes.  The number of questions is below `2 ^ 53`, the range in which a number
holds an integer exactly (the length of an array is below `2 ^ 32`). -/
theorem isPassed_iff (questions : List Question) (s : QuizState)
    (hs : s.score ≤ questions.length) (hn : questions.length < 2 ^ 53) :
    (QuizComponent.isPassed questions s = true ↔
      0 < questions.length ∧ (4 : ℚ) / 5 ≤ (s.score : ℚ) / (questions.length : ℚ)) ∧
    (QuizComponent.isPassed questions s = true ↔
      0 < questions.length ∧ 4 * questions.length ≤ 5 * s.score) ∧
    (∀ t : QuizState, QuizComponent.isPassed [] t = false) ∧
    (0 < questions.length → s.score = questions.length →
      QuizComponent.isPassed questions s = true) := by
  have key : QuizComponent.isPassed questions s = true ↔
      0 < questions.length ∧ 4 * questions.length ≤ 5 * s.score := by
    unfold QuizComponent.isPassed
    rw [Bool.and_eq_true, decide_eq_true_eq]
    constructor
    · rintro ⟨h0, h1⟩
      exact ⟨h0, (div_ge_literal_iff _ _ h0 hs hn).1 h1⟩
    · rintro ⟨h0, h1⟩
      exact ⟨h0, (div_ge_literal_iff _ _ h0 hs hn).2 h1⟩
  refine ⟨?_, key, ?_, ?_⟩
  · rw [key]
    constructor
    · rintro ⟨h0, h1⟩
      refine ⟨h0, ?_⟩
      have hq : (0 : ℚ) < (questions.length : ℚ) := by exact_mod_cast h0
      rw [div_le_div_iff₀ (by norm_num) hq]
      have h2 : 4 * questions.length ≤ s.score * 5 := by omega
      exact_mod_cast h2
    · rintro ⟨h0, h1⟩
      refine ⟨h0, ?_⟩
      have hq : (0 : ℚ) < (questions.length : ℚ) := by exact_mod_cast h0
      rw [div_le_div_iff₀ (by norm_num) hq] at h1
      have h2 : 4 * questions.length ≤ s.score * 5 := by exact_mod_cast h1
      omega
  · intro t
    simp [QuizComponent.isPassed]
  · intro h0 heq
    exact key.2 ⟨h0, by omega⟩

/-- Witness for C10: five questions, all five answered correctly. -/
theorem isPassed_iff_witness :
    QuizComponent.isPassed (List.replicate 5 ⟨"q", ["x", "y"], 0⟩) ⟨fun _ => some 0, true, 5⟩
      = true :=
  (isPassed_iff (List.replicate 5 ⟨"q", ["x", "y"], 0⟩) ⟨fun _ => some 0, true, 5⟩
    (by decide) (by decide)).2.2.2 (by decide) (by decide)

/-- C11. A question whose index has no entry in the answer mapping adds nothing
to the score: the score is the number of the other positions at which the entry
equals the correct index, and it stays the same when the unanswered question is
exchanged for any other question, whatever its correct index. -/
theorem unanswered_question_not_counted (questions : List Question) (s : QuizState)
    (i : Nat) (hi : i < questions.length) (hnone : s.userAnswers i = none) :
    (QuizComponent.handleSubmit questions s).score
      = ((List.range questions.length).filter
          (fun j => decide (j ≠ i ∧
            s.userAnswers j = (questions[j]?).map Question.correctIndex))).length ∧
    ∀ q : Question,
      (QuizComponent.handleSubmit (questions.set i q) s).score
        = (QuizComponent.handleSubmit questions s).score := by
  have skip : ∀ (qs : List Question), qs.length = questions.length →
      (QuizComponent.handleSubmit qs s).score
        = ((List.range questions.length).filter
            (fun j => decide (j ≠ i ∧
              s.userAnswers j = (qs[j]?).map Question.correctIndex))).length := by
    intro qs hlen
    simp only [QuizComponent.handleSubmit, countCorrect_eq, Nat.zero_add, hlen]
    congr 1
    apply List.filter_congr
    intro j hj
    by_cases hji : j = i
    · subst hji
      have hq : j < qs.length := by omega
      simp [hnone, List.getElem?_eq_getElem hq]
    · simp [hji]
  refine ⟨skip questions rfl, ?_⟩
  intro q
  rw [skip questions rfl, skip (questions.set i q) (List.length_set _ _ _)]
  congr 1
  apply List.filter_congr
  intro j _
  by_cases hji : j = i
  · simp [hji]
  · have hne : i ≠ j := fun h => hji h.symm
    simp [hji, List.getElem?_set_ne hne]

/-- Witness for C11: two questions, the second one unanswered and exchanged
for a question with another correct index. -/
theorem unanswered_question_not_counted_witness :
    (QuizComponent.handleSubmit
        ((([⟨"a", ["x", "y"], 1⟩, ⟨"b", ["x", "y"], 0⟩] : List Question)).set 1
          ⟨"c", ["x", "y", "z"], 2⟩)
        ⟨fun j => if j = 0 then some 1 else none, false, 0⟩).score
      = (QuizComponent.handleSubmit [⟨"a", ["x", "y"], 1⟩, ⟨"b", ["x", "y"], 0⟩]
        ⟨fun j => if j = 0 then some 1 else none, false, 0⟩).score :=
  (unanswered_question_not_counted [⟨"a", ["x", "y"], 1⟩, ⟨"b", ["x", "y"], 0⟩]
    ⟨fun j => if j = 0 then some 1 else none, false, 0⟩ 1 (by decide) (by decide)).2
    ⟨"c", ["x", "y", "z"], 2⟩

/-! ## Claims on the course progression -/

theorem bundlePolicies_length_eq (activeBundle : Bundle) (policies : List Policy)
    (hids : activeBundle.policyIds.Nodup) (hpol : (policies.map Policy.id).Nodup)
    (hall : ∀ id ∈ activeBundle.policyIds, ∃ p ∈ policies, p.id = id) :
    (CoursePlayer.bundlePolicies activeBundle policies).length
      = activeBundle.policyIds.length := by
  have hsub : ((CoursePlayer.bundlePolicies activeBundle policies).map Policy.id).Sublist
      (policies.map Policy.id) := (List.filter_sublist _).map _
  have hnd := hpol.sublist hsub
  have hperm : ((CoursePlayer.bundlePolicies activeBundle policies).map Policy.id).Perm
      activeBundle.policyIds := by
    rw [List.perm_ext_iff_of_nodup hnd hids]
    intro id
    constructor
    · intro h
      obtain ⟨p, hp, rfl⟩ := List.mem_map.1 h
      simpa [CoursePlayer.bundlePolicies] using (List.mem_filter.1 hp).2
    · intro h
      obtain ⟨p, hp, rfl⟩ := hall id h
      refine List.mem_map.2 ⟨p, ?_, rfl⟩
      exact List.mem_filter.2 ⟨hp, by simpa using h⟩
  rw [← hperm.length_eq, List.length_map]

/-- C12 (as amended). With `N` the number of policies of the collection whose
identifier is in the bundle's policy-identifier list (the length of
`bundlePolicies`), the pass transition from index `i` yields index
`i + 1` in read mode when `i + 1 < N`, and summary mode with the index unchanged
otherwise.  `N` is the number of entries of the identifier list when that list
has no duplicate, the collection has pairwise distinct identifiers and every
entry is the identifier of a policy of the collection. -/
theorem onPass_advances_or_completes (activeBundle : Bundle) (policies : List Policy)
    (courseState : CourseState) :
    (courseState.index + 1 < (CoursePlayer.bundlePolicies activeBundle policies).length →
      CoursePlayer.onPass activeBundle policies courseState
        = ⟨courseState.active, courseState.index + 1, .read⟩) ∧
    (¬ courseState.index + 1 < (CoursePlayer.bundlePolicies activeBundle policies).length →
      CoursePlayer.onPass activeBundle policies courseState
        = ⟨courseState.active, courseState.index, .summary⟩) ∧
    (activeBundle.policyIds.Nodup → (policies.map Policy.id).Nodup →
      (∀ id ∈ activeBundle.policyIds, ∃ p ∈ policies, p.id = id) →
      (CoursePlayer.bundlePolicies activeBundle policies).length
        = activeBundle.policyIds.length) := by
  refine ⟨?_, ?_, bundlePolicies_length_eq activeBundle policies⟩
  · intro h
    simp [CoursePlayer.onPass, h]
  · intro h
    simp [CoursePlayer.onPass, h]

/-- Witness for C12 (as amended): the seed bundle over the seed collection,
whose single module leads to the summary. -/
theorem onPass_advances_or_completes_witness :
    CoursePlayer.onPass ⟨"bundle-1", "Orientation Essentials", "", ["demo-001"]⟩
      defaultPolicies ⟨true, 0, .quiz⟩ = ⟨true, 0, .summary⟩ :=
  (onPass_advances_or_completes ⟨"bundle-1", "Orientation Essentials", "", ["demo-001"]⟩
    defaultPolicies ⟨true, 0, .quiz⟩).2.1 (by decide)

/-- Counterexample to C12 as stated: the identifier list of the bundle has two
entries, one of them naming no policy of the collection; from index 0 in quiz
mode, where `0 + 1 < 2`, the pass transition yields the summary and not index 1
in read mode. -/
theorem onPass_counts_found_policies :
    (⟨"bundle-1", "Orientation Essentials", "", ["demo-001", "deleted-1"]⟩ : Bundle).policyIds.length
      = 2 ∧
    CoursePlayer.onPass ⟨"bundle-1", "Orientation Essentials", "", ["demo-001", "deleted-1"]⟩
      defaultPolicies ⟨true, 0, .quiz⟩ = ⟨true, 0, .summary⟩ ∧
    CoursePlayer.onPass ⟨"bundle-1", "Orientation Essentials", "", ["demo-001", "deleted-1"]⟩
      defaultPolicies ⟨true, 0, .quiz⟩ ≠ ⟨true, 1, .read⟩ := by
  refine ⟨rfl, by decide, by decide⟩

theorem iterate_pass (bundle : Bundle) (policies : List Policy) (k : Nat)
    (hk : k < (CoursePlayer.bundlePolicies bundle policies).length) :
    (fun cs => CoursePlayer.onPass bundle policies (CoursePlayer.setModeQuiz cs))^[k]
      ⟨true, 0, .read⟩ = ⟨true, k, .read⟩ := by
  induction k with
  | zero => rfl
  | succ k ih =>
    rw [Function.iterate_succ_apply', ih (by omega)]
    simp [CoursePlayer.onPass, CoursePlayer.setModeQuiz, hk]

/-- C13 (as amended). With `N >= 1` the number of policies of the collection
whose identifier is in the bundle's identifier list (the length of
`bundlePolicies`), the course `startCourse` starts is at index 0 in read mode;
after `k < N` passes it is at index `k` in read mode, the read-to-quiz action
before the next pass puts it at index `k` in quiz mode, and after the `N`-th
pass it is at index `N - 1` in summary mode.  With `N = 3`, the pass at index 0
gives index 1 in read mode and the pass at index 2 gives the summary.  `N` is
the number of entries of the identifier list when that list has no duplicate,
the collection has pairwise distinct identifiers and every entry is the
identifier of a policy of the collection. -/
theorem course_runs_through_bundle (bundle : Bundle) (policies : List Policy)
    (app : AppState) (hN : 1 ≤ (CoursePlayer.bundlePolicies bundle policies).length) :
    (App.startCourse bundle app).courseState = ⟨true, 0, .read⟩ ∧
    (App.startCourse bundle app).activeBundle = some bundle ∧
    (∀ k, k < (CoursePlayer.bundlePolicies bundle policies).length →
      (fun cs => CoursePlayer.onPass bundle policies (CoursePlayer.setModeQuiz cs))^[k]
        (App.startCourse bundle app).courseState = ⟨true, k, .read⟩) ∧
    (∀ k, k < (CoursePlayer.bundlePolicies bundle policies).length →
      CoursePlayer.setModeQuiz
        ((fun cs => CoursePlayer.onPass bundle policies (CoursePlayer.setModeQuiz cs))^[k]
          (App.startCourse bundle app).courseState) = ⟨true, k, .quiz⟩) ∧
    ((fun cs => CoursePlayer.onPass bundle policies (CoursePlayer.setModeQuiz cs))^[
        (CoursePlayer.bundlePolicies bundle policies).length]
      (App.startCourse bundle app).courseState)
      = ⟨true, (CoursePlayer.bundlePolicies bundle policies).length - 1, .summary⟩ ∧
    ((CoursePlayer.bundlePolicies bundle policies).length = 3 →
      CoursePlayer.onPass bundle policies ⟨true, 0, .quiz⟩ = ⟨true, 1, .read⟩ ∧
      CoursePlayer.onPass bundle policies ⟨true, 2, .quiz⟩ = ⟨true, 2, .summary⟩) ∧
    (bundle.policyIds.Nodup → (policies.map Policy.id).Nodup →
      (∀ id ∈ bundle.policyIds, ∃ p ∈ policies, p.id = id) →
      (CoursePlayer.bundlePolicies bundle policies).length = bundle.policyIds.length) := by
  have hstart : (App.startCourse bundle app).courseState = ⟨true, 0, .read⟩ := rfl
  refine ⟨rfl, rfl, fun k hk => iterate_pass bundle policies k hk, ?_, ?_, ?_,
    bundlePolicies_length_eq bundle policies⟩
  · intro k hk
    rw [hstart, iterate_pass bundle policies k hk]
    rfl
  · obtain ⟨n, hn⟩ : ∃ n, (CoursePlayer.bundlePolicies bundle policies).length = n + 1 :=
      ⟨(CoursePlayer.bundlePolicies bundle policies).length - 1, by omega⟩
    rw [hstart, hn, Function.iterate_succ_apply', iterate_pass bundle policies n (by omega)]
    simp [CoursePlayer.onPass, CoursePlayer.setModeQuiz, hn]
  · intro h3
    simp [CoursePlayer.onPass, h3]

/-- Witness for C13 (as amended): a bundle of three policies, all three in the
collection; the first two passes advance the index and the third one ends the
course. -/
theorem course_runs_through_bundle_witness :
    (App.startCourse ⟨"b-3", "Three", "", ["p-1", "p-2", "p-3"]⟩ App.init).courseState
      = ⟨true, 0, .read⟩ ∧
    (fun cs => CoursePlayer.onPass ⟨"b-3", "Three", "", ["p-1", "p-2", "p-3"]⟩
        [⟨"p-1", "", "One", "", "", []⟩, ⟨"p-2", "", "Two", "", "", []⟩,
          ⟨"p-3", "", "Three", "", "", []⟩] (CoursePlayer.setModeQuiz cs))^[1]
      (App.startCourse ⟨"b-3", "Three", "", ["p-1", "p-2", "p-3"]⟩ App.init).courseState
      = ⟨true, 1, .read⟩ ∧
    (fun cs => CoursePlayer.onPass ⟨"b-3", "Three", "", ["p-1", "p-2", "p-3"]⟩
        [⟨"p-1", "", "One", "", "", []⟩, ⟨"p-2", "", "Two", "", "", []⟩,
          ⟨"p-3", "", "Three", "", "", []⟩] (CoursePlayer.setModeQuiz cs))^[2]
      (App.startCourse ⟨"b-3", "Three", "", ["p-1", "p-2", "p-3"]⟩ App.init).courseState
      = ⟨true, 2, .read⟩ ∧
    (CoursePlayer.onPass ⟨"b-3", "Three", "", ["p-1", "p-2", "p-3"]⟩
        [⟨"p-1", "", "One", "", "", []⟩, ⟨"p-2", "", "Two", "", "", []⟩,
          ⟨"p-3", "", "Three", "", "", []⟩] ⟨true, 0, .quiz⟩ = ⟨true, 1, .read⟩ ∧
      CoursePlayer.onPass ⟨"b-3", "Three", "", ["p-1", "p-2", "p-3"]⟩
        [⟨"p-1", "", "One", "", "", []⟩, ⟨"p-2", "", "Two", "", "", []⟩,
          ⟨"p-3", "", "Three", "", "", []⟩] ⟨true, 2, .quiz⟩ = ⟨true, 2, .summary⟩) ∧
    (CoursePlayer.bundlePolicies ⟨"b-3", "Three", "", ["p-1", "p-2", "p-3"]⟩
        [⟨"p-1", "", "One", "", "", []⟩, ⟨"p-2", "", "Two", "", "", []⟩,
          ⟨"p-3", "", "Three", "", "", []⟩]).length
      = (⟨"b-3", "Three", "", ["p-1", "p-2", "p-3"]⟩ : Bundle).policyIds.length :=
  have h := course_runs_through_bundle ⟨"b-3", "Three", "", ["p-1", "p-2", "p-3"]⟩
    [⟨"p-1", "", "One", "", "", []⟩, ⟨"p-2", "", "Two", "", "", []⟩,
      ⟨"p-3", "", "Three", "", "", []⟩] App.init (by decide)
  ⟨h.1, h.2.2.1 1 (by decide), h.2.2.1 2 (by decide), h.2.2.2.2.2.1 (by decide),
    h.2.2.2.2.2.2 (by decide) (by decide) (by decide)⟩

/-- Counterexample to C13 as stated: the bundle lists two identifiers, `N = 2`,
one of them naming no policy of the collection; the course starts at index 0 in
read mode and after one pass, where `1 < 2`, it is in summary mode at index 0,
not at index 1 in read mode. -/
theorem course_with_missing_policy_ends_early :
    (⟨"bundle-1", "Orientation Essentials", "", ["demo-001", "deleted-1"]⟩ : Bundle).policyIds.length
      = 2 ∧
    (App.startCourse ⟨"bundle-1", "Orientation Essentials", "", ["demo-001", "deleted-1"]⟩
      App.init).courseState = ⟨true, 0, .read⟩ ∧
    (fun cs => CoursePlayer.onPass
        ⟨"bundle-1", "Orientation Essentials", "", ["demo-001", "deleted-1"]⟩ defaultPolicies
        (CoursePlayer.setModeQuiz cs))^[1]
      (App.startCourse ⟨"bundle-1", "Orientation Essentials", "", ["demo-001", "deleted-1"]⟩
        App.init).courseState = ⟨true, 0, .summary⟩ ∧
    (fun cs => CoursePlayer.onPass
        ⟨"bundle-1", "Orientation Essentials", "", ["demo-001", "deleted-1"]⟩ defaultPolicies
        (CoursePlayer.setModeQuiz cs))^[1]
      (App.startCourse ⟨"bundle-1", "Orientation Essentials", "", ["demo-001", "deleted-1"]⟩
        App.init).courseState ≠ ⟨true, 1, .read⟩ := by
  refine ⟨rfl, rfl, by decide, by decide⟩

theorem step_nextModule_some (activeBundle : Bundle) (policies : List Policy)
    (u v : PlayerState)
    (h : CoursePlayer.step activeBundle policies u .nextModule = some v) :
    ∃ p, CoursePlayer.currentPolicy activeBundle policies u.courseState = some p ∧
      u.quiz.showResult = true ∧ QuizComponent.isPassed p.questions u.quiz = true ∧
      v.courseState = CoursePlayer.onPass activeBundle policies u.courseState := by
  by_cases h1 : u.courseState.mode = .summary
  · simp [CoursePlayer.step, h1] at h
  · cases hp : CoursePlayer.currentPolicy activeBundle policies u.courseState with
    | none => simp [CoursePlayer.step, h1, hp] at h
    | some p =>
      by_cases h2 : u.courseState.mode = .read
      · simp [CoursePlayer.step, h1, hp, h2] at h
      · by_cases h3 : CoursePlayer.nextModuleOffered p.questions u.quiz = true
        · simp only [CoursePlayer.step, if_neg h1, hp, if_neg h2, if_pos h3] at h
          have hv : v = ⟨CoursePlayer.onPass activeBundle policies u.courseState,
              QuizComponent.init⟩ := (Option.some.inj h).symm
          simp only [CoursePlayer.nextModuleOffered, Bool.and_eq_true] at h3
          exact ⟨p, rfl, h3.1, h3.2, by rw [hv]⟩
        · simp [CoursePlayer.step, h1, hp, h2, h3] at h

/-- C14. A submission in quiz mode changes the state of the quiz only: the
course state after it is the course state before it, index and mode included.
When the result is not a pass, the page rendered afterwards does not show the
Next Module control; the control is shown, and `onPass` run, only from a state
whose quiz result is shown and is a pass. -/
theorem submission_keeps_course_state (activeBundle : Bundle) (policies : List Policy)
    (s t : PlayerState) (policy : Policy)
    (hmode : s.courseState.mode = .quiz)
    (hcur : CoursePlayer.currentPolicy activeBundle policies s.courseState = some policy)
    (hsub : CoursePlayer.step activeBundle policies s .submit = some t) :
    t.courseState = s.courseState ∧ t.courseState.mode = .quiz ∧
    t.quiz = QuizComponent.handleSubmit policy.questions s.quiz ∧
    (QuizComponent.isPassed policy.questions t.quiz = false →
      CoursePlayer.step activeBundle policies t .nextModule = none) ∧
    (∀ u v : PlayerState, CoursePlayer.step activeBundle policies u .nextModule = some v →
      ∃ p, CoursePlayer.currentPolicy activeBundle policies u.courseState = some p ∧
        u.quiz.showResult = true ∧ QuizComponent.isPassed p.questions u.quiz = true ∧
        v.courseState = CoursePlayer.onPass activeBundle policies u.courseState) := by
  have hsum : s.courseState.mode ≠ .summary := by rw [hmode]; decide
  have hread : s.courseState.mode ≠ .read := by rw [hmode]; decide
  simp only [CoursePlayer.step, if_neg hsum, hcur, if_neg hread] at hsub
  split_ifs at hsub with hav
  have ht : t = { s with quiz := QuizComponent.handleSubmit policy.questions s.quiz } :=
    (Option.some.inj hsub).symm
  subst ht
  refine ⟨rfl, hmode, rfl, ?_, ?_⟩
  · intro hfail
    simp only [CoursePlayer.step, if_neg hsum, hcur, if_neg hread]
    simp [CoursePlayer.nextModuleOffered, hfail]
  · intro u v huv
    exact step_nextModule_some activeBundle policies u v huv

/-- Witness for C14: the seed course, the quiz submitted with no answer. -/
theorem submission_keeps_course_state_witness :
    (⟨⟨true, 0, .quiz⟩, QuizComponent.handleSubmit
        [⟨"Primary maneuver to open airway without spinal concerns?",
            ["Jaw thrust", "Head tilt/chin lift"], 1⟩,
          ⟨"What equipment must be ready?", ["Suction", "Nebulizer"], 0⟩]
        QuizComponent.init⟩ : PlayerState).courseState = ⟨true, 0, .quiz⟩ :=
  (submission_keeps_course_state ⟨"bundle-1", "Orientation Essentials", "", ["demo-001"]⟩
    defaultPolicies ⟨⟨true, 0, .quiz⟩, QuizComponent.init⟩
    ⟨⟨true, 0, .quiz⟩, QuizComponent.handleSubmit
        [⟨"Primary maneuver to open airway without spinal concerns?",
            ["Jaw thrust", "Head tilt/chin lift"], 1⟩,
          ⟨"What equipment must be ready?", ["Suction", "Nebulizer"], 0⟩]
        QuizComponent.init⟩
    defaultPolicies[0] rfl rfl rfl).1

/-- C15 (as amended). The policies the course player presents are the policies
of the collection whose identifier is in the bundle's identifier list, in the
order of the policy collection: the sequence is a subsequence of the
collection, it holds each such policy as often as the collection does and no
other policy, the policy shown at index `k` is its `k`-th entry, and it is the
same for every bundle whose identifier list has the same members, in whatever
order that list is authored. -/
theorem course_follows_collection_order (activeBundle : Bundle) (policies : List Policy) :
    (CoursePlayer.bundlePolicies activeBundle policies).Sublist policies ∧
    (∀ p : Policy, p ∈ CoursePlayer.bundlePolicies activeBundle policies ↔
      p ∈ policies ∧ p.id ∈ activeBundle.policyIds) ∧
    (∀ p : Policy, p.id ∈ activeBundle.policyIds →
      (CoursePlayer.bundlePolicies activeBundle policies).count p = policies.count p) ∧
    (∀ courseState : CourseState,
      CoursePlayer.currentPolicy activeBundle policies courseState
        = (CoursePlayer.bundlePolicies activeBundle policies)[courseState.index]?) ∧
    (∀ other : Bundle, (∀ id, id ∈ other.policyIds ↔ id ∈ activeBundle.policyIds) →
      CoursePlayer.bundlePolicies other policies
        = CoursePlayer.bundlePolicies activeBundle policies) := by
  refine ⟨List.filter_sublist _, ?_, ?_, fun _ => rfl, ?_⟩
  · intro p
    simp [CoursePlayer.bundlePolicies, List.mem_filter]
  · intro p hp
    rw [CoursePlayer.bundlePolicies, List.count_filter]
    simpa using hp
  · intro other hsame
    apply List.filter_congr
    intro p _
    have := hsame p.id
    by_cases h : p.id ∈ activeBundle.policyIds
    · simp [h, this.2 h]
    · have h2 : p.id ∉ other.policyIds := fun hc => h (this.1 hc)
      simp [h, h2]

/-- Witness for C15 (as amended): two bundles listing the same two policies in
opposite orders are presented alike. -/
theorem course_follows_collection_order_witness :
    CoursePlayer.bundlePolicies ⟨"b-2", "", "", ["p-2", "p-1"]⟩
        [⟨"p-1", "", "One", "", "", []⟩, ⟨"p-2", "", "Two", "", "", []⟩]
      = CoursePlayer.bundlePolicies ⟨"b-1", "", "", ["p-1", "p-2"]⟩
        [⟨"p-1", "", "One", "", "", []⟩, ⟨"p-2", "", "Two", "", "", []⟩] :=
  (course_follows_collection_order ⟨"b-1", "", "", ["p-1", "p-2"]⟩
    [⟨"p-1", "", "One", "", "", []⟩, ⟨"p-2", "", "Two", "", "", []⟩]).2.2.2.2
    ⟨"b-2", "", "", ["p-2", "p-1"]⟩ (by
      intro id
      simp only [List.mem_cons, List.mem_singleton, List.not_mem_nil, or_false]
      exact or_comm)

/-- Counterexample to C15 as stated: the bundle lists `p-2` before `p-1`, the
collection holds `p-1` before `p-2`, and the policy presented at index 0 is
`p-1`, not the policy of the first entry of the identifier list. -/
theorem course_order_is_not_authored_order :
    (⟨"b-2", "", "", ["p-2", "p-1"]⟩ : Bundle).policyIds[0]? = some "p-2" ∧
    CoursePlayer.currentPolicy ⟨"b-2", "", "", ["p-2", "p-1"]⟩
        [⟨"p-1", "", "One", "", "", []⟩, ⟨"p-2", "", "Two", "", "", []⟩] ⟨true, 0, .read⟩
      = some ⟨"p-1", "", "One", "", "", []⟩ := by
  refine ⟨rfl, by decide⟩

theorem render_ok (activeBundle : Bundle) (policies : List Policy) (courseState : CourseState) :
    ∃ r, CoursePlayer.render activeBundle policies courseState = .ok r := by
  unfold CoursePlayer.render
  by_cases h1 : courseState.mode = .summary
  · exact ⟨.summary activeBundle.title, by simp only [if_pos h1]⟩
  · cases hp : CoursePlayer.currentPolicy activeBundle policies courseState with
    | none => exact ⟨.null, by simp [h1]⟩
    | some p =>
      by_cases h2 : courseState.mode = .read
      · exact ⟨.read p.title p.content, by
          simp [h1, h2, CoursePlayer.property, bind, Except.bind, pure, Except.pure]⟩
      · exact ⟨.quiz p.title p.questions, by
          simp [h1, h2, CoursePlayer.property, bind, Except.bind, pure, Except.pure]⟩

/-- C16 (as amended). At an index that is not below the number of policies of
the collection whose identifier is in the bundle's list, there is no current
policy: `currentPolicy` is `undefined`, the player renders nothing unless the
course is in summary mode, shows no control, and no error is raised (rendering
raises none at any index).  In particular this is so at every index when no
identifier of the bundle is the identifier of a policy.  An identifier without
policy takes no index of its own. -/
theorem playback_beyond_found_policies (activeBundle : Bundle) (policies : List Policy)
    (courseState : CourseState)
    (hidx : (CoursePlayer.bundlePolicies activeBundle policies).length ≤ courseState.index) :
    CoursePlayer.currentPolicy activeBundle policies courseState = none ∧
    (courseState.mode ≠ .summary →
      CoursePlayer.render activeBundle policies courseState = .ok .null) ∧
    (∃ r, CoursePlayer.render activeBundle policies courseState = .ok r) ∧
    (∀ (quiz : QuizState) (control : Control),
      CoursePlayer.step activeBundle policies ⟨courseState, quiz⟩ control = none) ∧
    ((∀ p ∈ policies, p.id ∉ activeBundle.policyIds) →
      CoursePlayer.bundlePolicies activeBundle policies = []) := by
  have hnone : CoursePlayer.currentPolicy activeBundle policies courseState = none := by
    unfold CoursePlayer.currentPolicy
    exact List.getElem?_eq_none hidx
  refine ⟨hnone, ?_, render_ok activeBundle policies courseState, ?_, ?_⟩
  · intro hmode
    simp [CoursePlayer.render, hmode, hnone]
  · intro quiz control
    by_cases h1 : courseState.mode = .summary
    · simp [CoursePlayer.step, h1]
    · simp [CoursePlayer.step, h1, hnone]
  · intro habs
    simp only [CoursePlayer.bundlePolicies, List.filter_eq_nil_iff]
    intro p hp
    simpa using habs p hp

/-- Witness for C16 (as amended): the seed bundle once the seed policy is
deleted from the collection. -/
theorem playback_beyond_found_policies_witness :
    CoursePlayer.currentPolicy ⟨"bundle-1", "Orientation Essentials", "", ["demo-001"]⟩ []
      ⟨true, 0, .read⟩ = none ∧
    CoursePlayer.render ⟨"bundle-1", "Orientation Essentials", "", ["demo-001"]⟩ []
      ⟨true, 0, .read⟩ = .ok .null :=
  have h := playback_beyond_found_policies
    ⟨"bundle-1", "Orientation Essentials", "", ["demo-001"]⟩ [] ⟨true, 0, .read⟩ (by decide)
  ⟨h.1, h.2.1 (by decide)⟩

/-- Counterexample to C16 as stated: position 0 of the identifier list holds an
identifier no policy has, and playback at index 0 has a current policy, the
seed policy listed after it, which the player renders. -/
theorem missing_reference_is_skipped :
    (∀ p ∈ defaultPolicies, p.id ≠ "deleted-1") ∧
    (⟨"bundle-1", "", "", ["deleted-1", "demo-001"]⟩ : Bundle).policyIds[0]? = some "deleted-1" ∧
    CoursePlayer.currentPolicy ⟨"bundle-1", "", "", ["deleted-1", "demo-001"]⟩ defaultPolicies
      ⟨true, 0, .read⟩ = defaultPolicies[0]? ∧
    CoursePlayer.render ⟨"bundle-1", "", "", ["deleted-1", "demo-001"]⟩ defaultPolicies
      ⟨true, 0, .read⟩ ≠ .ok .null := by
  refine ⟨by decide, rfl, by rfl, ?_⟩
  intro h
  have h2 : CoursePlayer.render ⟨"bundle-1", "", "", ["deleted-1", "demo-001"]⟩ defaultPolicies
      ⟨true, 0, .read⟩ = .ok (.read "Airway Management" (defaultPolicies[0]).content) := by rfl
  rw [h2] at h
  exact absurd h (by simp)

theorem step_index (activeBundle : Bundle) (policies : List Policy) (s t : PlayerState)
    (control : Control) (h : CoursePlayer.step activeBundle policies s control = some t) :
    t.courseState.index = s.courseState.index ∨
      t.courseState = CoursePlayer.onPass activeBundle policies s.courseState := by
  by_cases h1 : s.courseState.mode = .summary
  · simp [CoursePlayer.step, h1] at h
  · cases hp : CoursePlayer.currentPolicy activeBundle policies s.courseState with
    | none => simp [CoursePlayer.step, h1, hp] at h
    | some p =>
      simp only [CoursePlayer.step, if_neg h1, hp] at h
      cases control with
      | readTab =>
        simp only [Option.some.injEq] at h
        subst h
        exact Or.inl rfl
      | quizTab =>
        simp only at h
        split_ifs at h
        all_goals
          simp only [Option.some.injEq] at h
          subst h
          exact Or.inl rfl
      | takeQuiz =>
        simp only at h
        split_ifs at h
        simp only [Option.some.injEq] at h
        subst h
        exact Or.inl rfl
      | selectOption idx oIdx =>
        simp only at h
        split_ifs at h
        cases hq : p.questions[idx]? with
        | none => simp [hq] at h
        | some q =>
          simp only [hq] at h
          split_ifs at h
          simp only [Option.some.injEq] at h
          subst h
          exact Or.inl rfl
      | submit =>
        simp only at h
        split_ifs at h
        simp only [Option.some.injEq] at h
        subst h
        exact Or.inl rfl
      | nextModule =>
        simp only at h
        split_ifs at h
        simp only [Option.some.injEq] at h
        subst h
        exact Or.inr rfl

theorem onPass_index_lt (activeBundle : Bundle) (policies : List Policy)
    (courseState : CourseState)
    (h : courseState.index < (CoursePlayer.bundlePolicies activeBundle policies).length) :
    (CoursePlayer.onPass activeBundle policies courseState).index
      < (CoursePlayer.bundlePolicies activeBundle policies).length := by
  unfold CoursePlayer.onPass
  split_ifs with hlt
  · exact hlt
  · exact h

theorem run_index_lt (activeBundle : Bundle) (policies : List Policy)
    (controls : List Control) (s : PlayerState)
    (h : s.courseState.index < (CoursePlayer.bundlePolicies activeBundle policies).length) :
    (CoursePlayer.run activeBundle policies s controls).courseState.index
      < (CoursePlayer.bundlePolicies activeBundle policies).length := by
  induction controls generalizing s with
  | nil => exact h
  | cons control rest ih =>
    unfold CoursePlayer.run
    apply ih
    cases hstep : CoursePlayer.step activeBundle policies s control with
    | none => exact h
    | some t =>
      rcases step_index activeBundle policies s t control hstep with hsame | hpass
      · simp only [Option.getD_some]
        omega
      · simp only [Option.getD_some, hpass]
        exact onPass_index_lt activeBundle policies s.courseState h

/-- C19 (as amended). For a bundle with `N >= 1` policies in the collection,
every state the course reaches from the state `startCourse` sets, through any
sequence of the controls of the course page (the read and quiz tabs, the quiz
button, the answers, the submission, the pass), has its index below `N`. -/
theorem course_index_in_bounds (bundle : Bundle) (policies : List Policy)
    (app : AppState) (controls : List Control)
    (hN : 1 ≤ (CoursePlayer.bundlePolicies bundle policies).length) :
    (CoursePlayer.run bundle policies (CoursePlayer.start bundle app) controls).courseState.index
      < (CoursePlayer.bundlePolicies bundle policies).length :=
  run_index_lt bundle policies controls (CoursePlayer.start bundle app) hN

/-- Witness for C19 (as amended): the seed course, read, quiz, read again. -/
theorem course_index_in_bounds_witness :
    (CoursePlayer.run ⟨"bundle-1", "Orientation Essentials", "", ["demo-001"]⟩ defaultPolicies
        (CoursePlayer.start ⟨"bundle-1", "Orientation Essentials", "", ["demo-001"]⟩ App.init)
        [.takeQuiz, .readTab, .quizTab, .nextModule]).courseState.index
      < (CoursePlayer.bundlePolicies ⟨"bundle-1", "Orientation Essentials", "", ["demo-001"]⟩
          defaultPolicies).length :=
  course_index_in_bounds ⟨"bundle-1", "Orientation Essentials", "", ["demo-001"]⟩
    defaultPolicies App.init [.takeQuiz, .readTab, .quizTab, .nextModule] (by decide)

/-- Counterexample to C19 as stated: a bundle saved with no policy selected has
an identifier list and a policy sequence of `N = 0` entries, and the course
started on it is at index 0, which is not below `N`. -/
theorem course_on_empty_bundle_starts_out_of_bounds :
    (⟨"bundle-2", "Empty", "", []⟩ : Bundle).policyIds.length = 0 ∧
    (CoursePlayer.bundlePolicies ⟨"bundle-2", "Empty", "", []⟩ defaultPolicies).length = 0 ∧
    (CoursePlayer.run ⟨"bundle-2", "Empty", "", []⟩ defaultPolicies
      (CoursePlayer.start ⟨"bundle-2", "Empty", "", []⟩ App.init) []).courseState.index = 0 ∧
    ¬ (CoursePlayer.run ⟨"bundle-2", "Empty", "", []⟩ defaultPolicies
        (CoursePlayer.start ⟨"bundle-2", "Empty", "", []⟩ App.init) []).courseState.index
      < (CoursePlayer.bundlePolicies ⟨"bundle-2", "Empty", "", []⟩ defaultPolicies).length := by
  refine ⟨rfl, rfl, rfl, by decide⟩

/-! ## Further claims on the data store and on the login -/

/-- C17. `deletePolicy`, `savePolicy` and `updateCategory` write the policy item
only: in the storage they leave, the bundle item and the metadata item are the
ones of the storage they started from, so `listBundles` and `metadata` return
what they returned before, whether or not a bundle lists the identifier. -/
theorem policy_operations_touch_policies_only (randomUUID id category : String)
    (policy : Policy) (ls ls1 : LocalStorage) (updated : List Policy)
    (h : policyService.deletePolicy id ls = .ok (updated, ls1) ∨
      policyService.savePolicy randomUUID policy ls = .ok (updated, ls1) ∨
      policyService.updateCategory id category ls = .ok (updated, ls1)) :
    ls1.njra_bundles = ls.njra_bundles ∧ ls1.njra_metadata = ls.njra_metadata ∧
    policyService.listBundles ls1 = policyService.listBundles ls ∧
    policyService.metadata ls1 = policyService.metadata ls := by
  have frame : ls1.njra_bundles = ls.njra_bundles ∧ ls1.njra_metadata = ls.njra_metadata := by
    cases hl : policyService.listPolicies ls with
    | error e =>
      unfold policyService.listPolicies at hl
      rcases h with h | h | h
      · simp [policyService.deletePolicy, hl, bind, Except.bind] at h
      · simp [policyService.savePolicy, hl, bind, Except.bind] at h
      · simp [policyService.updateCategory, hl, bind, Except.bind] at h
    | ok ps =>
      rcases h with h | h | h
      · rw [deletePolicy_eq id ls ps hl] at h
        have h2 := (Prod.mk.inj (Except.ok.inj h)).2
        rw [← h2]
        exact ⟨rfl, rfl⟩
      · rw [savePolicy_eq randomUUID policy ls ps hl] at h
        have h2 := (Prod.mk.inj (Except.ok.inj h)).2
        rw [← h2]
        exact ⟨rfl, rfl⟩
      · rw [updateCategory_eq id category ls ps hl] at h
        have h2 := (Prod.mk.inj (Except.ok.inj h)).2
        rw [← h2]
        exact ⟨rfl, rfl⟩
  refine ⟨frame.1, frame.2, ?_, ?_⟩
  · unfold policyService.listBundles
    rw [frame.1]
  · unfold policyService.metadata
    rw [frame.2]

/-- Witness for C17: the seed policy, which the seed bundle lists, deleted. -/
theorem policy_operations_touch_policies_only_witness :
    policyService.listBundles ⟨none, persist [], none⟩ = .ok defaultBundles ∧
    policyService.metadata ⟨none, persist [], none⟩ = .ok ⟨"Demo Data"⟩ :=
  have h := policy_operations_touch_policies_only "uuid-1" "demo-001" "Documentation"
    ⟨"demo-001", "", "", "", "", []⟩ LocalStorage.fresh ⟨none, persist [], none⟩ []
    (Or.inl (by rfl))
  ⟨h.2.2.1, h.2.2.2⟩

/-- C18. When `apiBaseUrl` is empty or `adminAuthEnabled` is false, `login` is
rejected with the configuration error and makes no request, whatever the
credentials and whatever the network would answer; the default configuration is
such a configuration.  Whenever `login` makes a request, `adminAuthEnabled` is
set and `apiBaseUrl` is not empty, and the one request goes to the login
address under `apiBaseUrl` with the credentials. -/
theorem login_disabled_without_configuration (config : Config)
    (fetch : Request → Except JsError Response) (credentials : Credentials) :
    (config.apiBaseUrl = "" ∨ config.adminAuthEnabled = false →
      createAuthService.login config fetch credentials
        = (.error (.error
            "Admin access is disabled. Configure a secure backend and enable adminAuthEnabled."),
          [])) ∧
    ((createAuthService.login config fetch credentials).2 ≠ [] →
      config.adminAuthEnabled = true ∧ config.apiBaseUrl ≠ "" ∧
      (createAuthService.login config fetch credentials).2
        = [⟨config.apiBaseUrl ++ "/auth/login", "POST", some credentials⟩]) ∧
    createAuthService.login defaultConfig fetch credentials
      = (.error (.error
          "Admin access is disabled. Configure a secure backend and enable adminAuthEnabled."),
        []) := by
  have off : config.apiBaseUrl = "" ∨ config.adminAuthEnabled = false →
      createAuthService.login config fetch credentials
        = (.error (.error
            "Admin access is disabled. Configure a secure backend and enable adminAuthEnabled."),
          []) := by
    intro h
    have hc : (!config.adminAuthEnabled || config.apiBaseUrl == "") = true := by
      rcases h with h | h
      · simp [h]
      · simp [h]
    simp only [createAuthService.login, hc, if_true]
  refine ⟨off, ?_, rfl⟩
  intro hreq
  by_cases hurl : config.apiBaseUrl = ""
  · rw [off (Or.inl hurl)] at hreq
    exact absurd rfl hreq
  · cases hen : config.adminAuthEnabled with
    | false =>
      rw [off (Or.inr hen)] at hreq
      exact absurd rfl hreq
    | true =>
      refine ⟨rfl, hurl, ?_⟩
      have hc : (!config.adminAuthEnabled || config.apiBaseUrl == "") = false := by
        simp [hen, hurl]
      simp only [createAuthService.login, hc]
      cases fetch ⟨config.apiBaseUrl ++ "/auth/login", "POST", some credentials⟩ with
      | error e => rfl
      | ok response =>
        cases hok : response.ok with
        | true => simp [hok]
        | false => simp [hok]

/-- Witness for C18: a base address is configured but the flag is not set. -/
theorem login_disabled_without_configuration_witness :
    createAuthService.login ⟨"https://api.example.org", false, true⟩
        (fun _ => .ok ⟨true, .ok ⟨none, "session"⟩⟩) ⟨"a@example.org", "secret"⟩
      = (.error (.error
          "Admin access is disabled. Configure a secure backend and enable adminAuthEnabled."),
        []) :=
  (login_disabled_without_configuration ⟨"https://api.example.org", false, true⟩
    (fun _ => .ok ⟨true, .ok ⟨none, "session"⟩⟩) ⟨"a@example.org", "secret"⟩).1 (Or.inr rfl)

/-- C20 (as amended). When the persisted policy (or bundle) text is not empty
and is not parseable as JSON, `listPolicies` (`listBundles`) is rejected with the
`SyntaxError` of `JSON.parse`; it does not return the seed collection.  The
seed collection is returned when the item was never written or holds the empty
string. -/
theorem malformed_collection_is_a_syntax_error (ls : LocalStorage) :
    policyService.listPolicies { ls with njra_policies := some .malformed }
      = .error .syntaxError ∧
    policyService.listBundles { ls with njra_bundles := some .malformed }
      = .error .syntaxError ∧
    policyService.listPolicies { ls with njra_policies := none } = .ok defaultPolicies ∧
    policyService.listPolicies { ls with njra_policies := some .empty } = .ok defaultPolicies ∧
    policyService.listBundles { ls with njra_bundles := none } = .ok defaultBundles ∧
    policyService.listBundles { ls with njra_bundles := some .empty } = .ok defaultBundles ∧
    (policyService.listPolicies ls = .error .syntaxError ↔ ls.njra_policies = some .malformed) ∧
    (policyService.listBundles ls = .error .syntaxError ↔ ls.njra_bundles = some .malformed) := by
  refine ⟨rfl, rfl, rfl, rfl, rfl, rfl, ?_, ?_⟩
  · unfold policyService.listPolicies
    rcases hv : ls.njra_policies with _ | v
    · simp [load]
    · cases v <;> simp [load]
  · unfold policyService.listBundles
    rcases hv : ls.njra_bundles with _ | v
    · simp [load]
    · cases v <;> simp [load]

/-- Counterexample to C20 as stated: with a malformed policy text (and likewise
a malformed bundle text) the list operation is rejected, while on a storage in
which nothing was written it returns the seed collection. -/
theorem malformed_collection_is_not_the_seed :
    policyService.listPolicies ⟨none, some .malformed, none⟩ = .error .syntaxError ∧
    policyService.listPolicies ⟨none, some .malformed, none⟩ ≠ .ok defaultPolicies ∧
    policyService.listPolicies LocalStorage.fresh = .ok defaultPolicies ∧
    policyService.listBundles ⟨none, none, some .malformed⟩ = .error .syntaxError ∧
    policyService.listBundles ⟨none, none, some .malformed⟩ ≠ .ok defaultBundles ∧
    policyService.listBundles LocalStorage.fresh = .ok defaultBundles := by
  refine ⟨rfl, ?_, rfl, rfl, ?_, rfl⟩
  · intro h
    have h2 : policyService.listPolicies ⟨none, some .malformed, none⟩ = .error .syntaxError := rfl
    rw [h2] at h
    exact absurd h (by simp)
  · intro h
    have h2 : policyService.listBundles ⟨none, none, some .malformed⟩ = .error .syntaxError := rfl
    rw [h2] at h
    exact absurd h (by simp)

/-! ## Identifier uniqueness -/

section Uniqueness

variable {α : Type}

theorem replaceById_ids (idOf : α → String) (x : α) (xs : List α) :
    (replaceById idOf x xs).map idOf = xs.map idOf := by
  induction xs with
  | nil => rfl
  | cons y ys ih =>
    by_cases h : idOf y = idOf x
    · simp [replaceById, h, ih]
    · simp [replaceById, h, ih]

theorem upsertById_ids_nodup (idOf : α → String) (withId : α → String → α)
    (hwith : ∀ y i, idOf (withId y i) = i) (newId : String) (x : α) (xs : List α)
    (hnd : (xs.map idOf).Nodup) (hfresh : newId ∉ xs.map idOf) :
    ((upsertById idOf withId newId x xs).map idOf).Nodup := by
  unfold upsertById
  split_ifs with hex
  · rw [replaceById_ids]
    exact hnd
  · rw [List.map_append, List.map_singleton, hwith]
    refine List.Nodup.append hnd (List.nodup_singleton _) ?_
    intro i hi hs
    rw [List.mem_singleton] at hs
    exact hfresh (hs ▸ hi)

theorem filter_ids_nodup (idOf : α → String) (keep : α → Bool) (xs : List α)
    (hnd : (xs.map idOf).Nodup) : ((xs.filter keep).map idOf).Nodup :=
  hnd.sublist ((List.filter_sublist xs).map idOf)

end Uniqueness

/-- C21. When the policy collection the store holds has pairwise distinct
identifiers and the generated identifier is not among them, `savePolicy`,
`deletePolicy` and `updateCategory` are fulfilled with a collection whose
identifiers are again pairwise distinct; likewise `saveBundle` and
`deleteBundle` on the bundle collection. -/
theorem operations_keep_identifiers_distinct (randomUUID id category : String)
    (policy : Policy) (bundle : Bundle) (ls : LocalStorage)
    (policies : List Policy) (bundles : List Bundle)
    (hp : policyService.listPolicies ls = .ok policies)
    (hb : policyService.listBundles ls = .ok bundles)
    (hpd : (policies.map Policy.id).Nodup) (hpf : randomUUID ∉ policies.map Policy.id)
    (hbd : (bundles.map Bundle.id).Nodup) (hbf : randomUUID ∉ bundles.map Bundle.id) :
    (∃ updated ls1, policyService.savePolicy randomUUID policy ls = .ok (updated, ls1) ∧
      (updated.map Policy.id).Nodup) ∧
    (∃ updated ls1, policyService.deletePolicy id ls = .ok (updated, ls1) ∧
      (updated.map Policy.id).Nodup) ∧
    (∃ updated ls1, policyService.updateCategory id category ls = .ok (updated, ls1) ∧
      (updated.map Policy.id).Nodup) ∧
    (∃ updated ls1, policyService.saveBundle randomUUID bundle ls = .ok (updated, ls1) ∧
      (updated.map Bundle.id).Nodup) ∧
    (∃ updated ls1, policyService.deleteBundle id ls = .ok (updated, ls1) ∧
      (updated.map Bundle.id).Nodup) := by
  refine ⟨⟨_, _, savePolicy_eq randomUUID policy ls policies hp, ?_⟩,
    ⟨_, _, deletePolicy_eq id ls policies hp, ?_⟩,
    ⟨_, _, updateCategory_eq id category ls policies hp, ?_⟩,
    ⟨_, _, saveBundle_eq randomUUID bundle ls bundles hb, ?_⟩,
    ⟨_, _, deleteBundle_eq id ls bundles hb, ?_⟩⟩
  · exact upsertById_ids_nodup Policy.id _ (fun _ _ => rfl) randomUUID policy policies hpd hpf
  · exact filter_ids_nodup Policy.id _ policies hpd
  · have hsame : (policies.map
        (fun p => if p.id == id then { p with category := category } else p)).map Policy.id
        = policies.map Policy.id := by
      rw [List.map_map]
      apply List.map_congr_left
      intro p _
      by_cases h : p.id = id
      · simp [h]
      · simp [h]
    rw [hsame]
    exact hpd
  · exact upsertById_ids_nodup Bundle.id _ (fun _ _ => rfl) randomUUID bundle bundles hbd hbf
  · exact filter_ids_nodup Bundle.id _ bundles hbd

/-- Witness for C21: the seed collections and an identifier they do not hold. -/
theorem operations_keep_identifiers_distinct_witness :
    (∃ updated ls1, policyService.savePolicy "uuid-1" ⟨"p-1", "X-01", "Title", "", "", []⟩
        LocalStorage.fresh = .ok (updated, ls1) ∧ (updated.map Policy.id).Nodup) ∧
    (∃ updated ls1, policyService.saveBundle "uuid-1" ⟨"bundle-2", "Title", "", []⟩
        LocalStorage.fresh = .ok (updated, ls1) ∧ (updated.map Bundle.id).Nodup) :=
  have h := operations_keep_identifiers_distinct "uuid-1" "demo-001" "Documentation"
    ⟨"p-1", "X-01", "Title", "", "", []⟩ ⟨"bundle-2", "Title", "", []⟩ LocalStorage.fresh
    defaultPolicies defaultBundles rfl rfl (by decide) (by decide) (by decide) (by decide)
  ⟨h.1, h.2.2.2.1⟩
